import Mathlib

/-!
Verification of the streaming chunk translators of the provider-conversions
repository: three stream adapters (Anthropic discrete events, OpenAI delta
chunks, Google full snapshots) converting the AI SDK intermediate event
stream, each with a mutable per-stream conversion context.  The TypeScript
sources are embedded shallowly: mutation of the context becomes explicit
state passing, JS Map becomes an insertion-ordered association list, and the
JSON primitives (JSON.parse / JSON.stringify) are modelled by an executable
JSON value type with a parser and serializer.
-/

namespace ProviderConversions

/-! ## JSON values (model of the JS JSON primitive) -/

inductive Json where
  | null : Json
  | bool (b : Bool) : Json
  | num (n : Int) : Json
  | str (s : String) : Json
  | arr (items : List Json) : Json
  | obj (fields : List (String × Json)) : Json

def escapeJsonChar (c : Char) : String :=
  if c = '"' then "\\\""
  else if c = '\\' then "\\\\"
  else if c = '\n' then "\\n"
  else if c = '\t' then "\\t"
  else if c = '\r' then "\\r"
  else String.mk [c]

def escapeJson (s : String) : String :=
  String.join (s.data.map escapeJsonChar)

-- Model of JSON.stringify (default formatting: no spaces, key insertion
-- order preserved).
mutual

def jsonStringify : Json → String
  | .null => "null"
  | .bool true => "true"
  | .bool false => "false"
  | .num n => toString n
  | .str s => "\"" ++ escapeJson s ++ "\""
  | .arr items => "[" ++ stringifyItems items ++ "]"
  | .obj fields => "\x7b" ++ stringifyFields fields ++ "\x7d"

def stringifyItems : List Json → String
  | [] => ""
  | [v] => jsonStringify v
  | v :: vs => jsonStringify v ++ "," ++ stringifyItems vs

def stringifyFields : List (String × Json) → String
  | [] => ""
  | [(k, v)] => "\"" ++ escapeJson k ++ "\":" ++ jsonStringify v
  | (k, v) :: fs =>
      "\"" ++ escapeJson k ++ "\":" ++ jsonStringify v ++ "," ++ stringifyFields fs

end

/-! ### JSON parser (model of JSON.parse; returns none where JSON.parse throws) -/

def isWsChar (c : Char) : Bool :=
  c = ' ' || c = '\t' || c = '\n' || c = '\r'

def skipWs : List Char → List Char
  | [] => []
  | c :: cs => if isWsChar c then skipWs cs else c :: cs

/-- Parse the body of a JSON string literal after the opening quote; returns
the decoded characters and the remainder after the closing quote. -/
def parseStrBody : List Char → Option (List Char × List Char)
  | [] => none
  | c :: cs =>
    if c = '"' then some ([], cs)
    else if c = '\\' then
      match cs with
      | [] => none
      | e :: cs2 =>
        let dec? : Option Char :=
          if e = '"' then some '"'
          else if e = '\\' then some '\\'
          else if e = '/' then some '/'
          else if e = 'n' then some '\n'
          else if e = 't' then some '\t'
          else if e = 'r' then some '\r'
          else if e = 'b' then some (Char.ofNat 8)
          else if e = 'f' then some (Char.ofNat 12)
          else none
        match dec? with
        | none => none
        | some d =>
          match parseStrBody cs2 with
          | none => none
          | some (rest, rem) => some (d :: rest, rem)
    else
      match parseStrBody cs with
      | none => none
      | some (rest, rem) => some (c :: rest, rem)

def takeDigits : List Char → List Char × List Char
  | [] => ([], [])
  | c :: cs =>
    if c.isDigit then
      let (ds, rest) := takeDigits cs
      (c :: ds, rest)
    else ([], c :: cs)

def digitsToNat (ds : List Char) : Nat :=
  ds.foldl (fun acc c => acc * 10 + (c.toNat - 48)) 0

mutual

def parseValue : Nat → List Char → Option (Json × List Char)
  | 0, _ => none
  | Nat.succ fuel, input =>
    match skipWs input with
    | [] => none
    | c :: cs =>
      if c = 'n' then
        match cs with
        | 'u' :: 'l' :: 'l' :: rest => some (.null, rest)
        | _ => none
      else if c = 't' then
        match cs with
        | 'r' :: 'u' :: 'e' :: rest => some (.bool true, rest)
        | _ => none
      else if c = 'f' then
        match cs with
        | 'a' :: 'l' :: 's' :: 'e' :: rest => some (.bool false, rest)
        | _ => none
      else if c = '"' then
        match parseStrBody cs with
        | some (sChars, rest) => some (.str (String.mk sChars), rest)
        | none => none
      else if c = '-' then
        match cs with
        | [] => none
        | d :: _ =>
          if d.isDigit then
            let (ds, rest) := takeDigits cs
            some (.num (-(digitsToNat ds : Int)), rest)
          else none
      else if c.isDigit then
        let (ds, rest) := takeDigits (c :: cs)
        some (.num (digitsToNat ds : Int), rest)
      else if c = '[' then
        match skipWs cs with
        | ']' :: rest => some (.arr [], rest)
        | other => match parseArrRest fuel other with
          | some (vs, rem) => some (.arr vs, rem)
          | none => none
      else if c = Char.ofNat 123 then
        match skipWs cs with
        | d :: rest =>
          if d = Char.ofNat 125 then some (.obj [], rest)
          else match parseObjRest fuel (d :: rest) with
            | some (fs, rem) => some (.obj fs, rem)
            | none => none
        | [] => none
      else none

/-- Parse the elements of a non-empty JSON array (input starts at the first
element); consumes the closing bracket. -/
def parseArrRest : Nat → List Char → Option (List Json × List Char)
  | 0, _ => none
  | Nat.succ fuel, input =>
    match parseValue fuel input with
    | none => none
    | some (v, rest) =>
      match skipWs rest with
      | ',' :: rest2 =>
        match parseArrRest fuel rest2 with
        | some (vs, rem) => some (v :: vs, rem)
        | none => none
      | ']' :: rest2 => some ([v], rest2)
      | _ => none

/-- Parse the members of a non-empty JSON object (input starts at the first
key); consumes the closing brace. -/
def parseObjRest : Nat → List Char → Option (List (String × Json) × List Char)
  | 0, _ => none
  | Nat.succ fuel, input =>
    match skipWs input with
    | '"' :: cs =>
      match parseStrBody cs with
      | none => none
      | some (keyChars, rest) =>
        match skipWs rest with
        | ':' :: rest2 =>
          match parseValue fuel rest2 with
          | none => none
          | some (v, rest3) =>
            match skipWs rest3 with
            | d :: rest4 =>
              if d = ',' then
                match parseObjRest fuel rest4 with
                | some (fs, rem) => some ((String.mk keyChars, v) :: fs, rem)
                | none => none
              else if d = Char.ofNat 125 then
                some ([(String.mk keyChars, v)], rest4)
              else none
            | [] => none
        | _ => none
    | _ => none

end

/-- Model of JSON.parse: none where the JS primitive would throw. -/
def parseJson (s : String) : Option Json :=
  match parseValue (s.length + 1) s.data with
  | none => none
  | some (v, rest) => if (skipWs rest).isEmpty then some v else none

/-! ## Insertion-ordered map (model of JS Map)

JS Map iterates in insertion order and an update of an existing key keeps
its position; both are captured by an association list with in-place update. -/

def mapGet? {α : Type} : List (String × α) → String → Option α
  | [], _ => none
  | (k', v) :: rest, k => if k' = k then some v else mapGet? rest k

def mapSet {α : Type} : List (String × α) → String → α → List (String × α)
  | [], k, v => [(k, v)]
  | (k', v') :: rest, k, v =>
    if k' = k then (k', v) :: rest else (k', v') :: mapSet rest k v

theorem mapGet?_mapSet_self {α : Type} (m : List (String × α)) (k : String) (v : α) :
    mapGet? (mapSet m k v) k = some v := by
  induction m with
  | nil => simp [mapGet?, mapSet]
  | cons p rest ih =>
    obtain ⟨k', v'⟩ := p
    by_cases h : k' = k
    · simp [mapGet?, mapSet, h]
    · simp [mapGet?, mapSet, h, ih]

theorem mapGet?_mapSet_ne {α : Type} (m : List (String × α)) (k k' : String) (v : α)
    (h : k' ≠ k) : mapGet? (mapSet m k v) k' = mapGet? m k' := by
  have hk : k ≠ k' := fun hh => h hh.symm
  induction m with
  | nil => simp [mapGet?, mapSet, hk]
  | cons p rest ih =>
    obtain ⟨k0, v0⟩ := p
    by_cases h0 : k0 = k
    · simp [mapGet?, mapSet, h0, hk]
    · by_cases h1 : k0 = k' <;> simp [mapGet?, mapSet, h0, h1, h, hk, ih]

theorem mapGet?_ne_nil {α : Type} {m : List (String × α)} {k : String} {v : α}
    (h : mapGet? m k = some v) : m ≠ [] := by
  intro he
  subst he
  simp [mapGet?] at h

/-! ## The intermediate (AI SDK) event vocabulary -/

/-- Usage counters of the AI SDK (all fields optional). -/
structure LanguageModelUsage where
  inputTokens : Option Nat
  outputTokens : Option Nat
  totalTokens : Option Nat
deriving DecidableEq

/-- The value carried by an error chunk: either an exception-like value with
a name and a message, or a plain string.  jsStringOfError models the JS
String() coercion on it. -/
inductive JsErrorValue where
  | exn (name message : String)
  | str (s : String)
deriving DecidableEq

/-- Model of the JS String() coercion: Error.prototype.toString renders
name-colon-message (degenerating when either side is empty); a plain string
is itself. -/
def jsStringOfError : JsErrorValue → String
  | .exn name message =>
      if name = "" then message
      else if message = "" then name
      else name ++ ": " ++ message
  | .str s => s

/-- The AI SDK stream chunk vocabulary (payload fields the adapters ignore
are dropped from the embedding). -/
inductive AiSDKChunk where
  | textStart (id : String)
  | textDelta (id : String) (text : String)
  | textEnd (id : String)
  | reasoningStart (id : String)
  | reasoningDelta (id : String) (text : String)
  | reasoningEnd (id : String)
  | toolInputStart (id : String) (toolName : String)
  | toolInputDelta (id : String) (delta : String)
  | toolInputEnd (id : String)
  | toolCall (toolCallId : String) (toolName : String) (input : Json)
  | toolResult (toolCallId : String) (toolName : String)
  | toolError (toolCallId : String) (toolName : String)
  | finishStep (usage : LanguageModelUsage) (finishReason : String)
  | finish (finishReason : String) (totalUsage : LanguageModelUsage)
  | start
  | startStep
  | abort
  | error (error : JsErrorValue)
  | source
  | file
  | raw

/-- The event kinds whose handling in adapter A opens the envelope (emits
message_start when not yet emitted): the content-opening events, the
complete tool call, the stream start and the finish. -/
def isEnvelopeTrigger : AiSDKChunk → Bool
  | .textStart _ => true
  | .reasoningStart _ => true
  | .toolInputStart _ _ => true
  | .toolCall _ _ _ => true
  | .start => true
  | .finish _ _ => true
  | _ => false

/-- Text and reasoning continuation events: the only events adapter A turns
into content-block output without first ensuring the envelope is open.  The
lifecycle-order input invariant guarantees their span was already opened. -/
def needsOpenBlock : AiSDKChunk → Bool
  | .textDelta _ _ => true
  | .textEnd _ => true
  | .reasoningDelta _ _ => true
  | .reasoningEnd _ => true
  | _ => false

/-- The lifecycle-order invariant on the intermediate stream, relative to
the sets of already-started text and reasoning span ids: every text or
reasoning delta or end event is preceded by a start event for its id.
(Ids are never retired, so id reuse after an end is permitted, making this
a consequence of the stated per-span lifecycle ordering.) -/
def lifecycleOK : List String → List String → List AiSDKChunk → Bool
  | _, _, [] => true
  | ts, rs, ch :: rest =>
    match ch with
    | .textStart id => lifecycleOK (id :: ts) rs rest
    | .textDelta id _ => ts.contains id && lifecycleOK ts rs rest
    | .textEnd id => ts.contains id && lifecycleOK ts rs rest
    | .reasoningStart id => lifecycleOK ts (id :: rs) rest
    | .reasoningDelta id _ => rs.contains id && lifecycleOK ts rs rest
    | .reasoningEnd id => rs.contains id && lifecycleOK ts rs rest
    | _ => lifecycleOK ts rs rest

/-! ## Adapter A: anthropicChunkFromAiSDK (src/anthropic/messages/chunk-from-ai.ts) -/

namespace Anthropic

/-- Anthropic content block payloads (only the fields the adapter writes;
constant fields such as citations null are dropped). -/
inductive ContentBlock where
  | text (text : String)
  | thinking (thinking : String) (signature : String)
  | toolUse (id : String) (name : String) (input : Json)

inductive BlockDelta where
  | textDelta (text : String)
  | thinkingDelta (thinking : String)
  | inputJsonDelta (json : String)

/-- Usage carried by a message delta event (cache fields, constant null, are
dropped). -/
structure MessageDeltaUsage where
  outputTokens : Nat
  inputTokens : Nat

/-- Anthropic RawMessageStreamEvent.  messageStart carries the envelope
fields the source writes (id, model, input token count; role assistant,
empty content, null stop reason are constant).  messageDelta carries the
converted stop reason (stop sequence is constant null) and usage. -/
inductive RawMessageStreamEvent where
  | messageStart (id : String) (model : String) (inputTokens : Nat)
  | contentBlockStart (index : Nat) (contentBlock : ContentBlock)
  | contentBlockDelta (index : Nat) (delta : BlockDelta)
  | contentBlockStop (index : Nat)
  | messageDelta (stopReason : String) (usage : MessageDeltaUsage)
  | messageStop

structure ChunkConversionContext where
  id : String
  model : String
  contentBlockIndex : Nat
  toolCallIndices : List (String × Nat)
  toolCallInputs : List (String × String)
  messageStarted : Bool
  inputTokens : Nat
  outputTokens : Nat
deriving DecidableEq

def createChunkConversionContext (id model : String) : ChunkConversionContext where
  id := id
  model := model
  contentBlockIndex := 0
  toolCallIndices := []
  toolCallInputs := []
  messageStarted := false
  inputTokens := 0
  outputTokens := 0

inductive ChunkConversionResult where
  | events (events : List RawMessageStreamEvent)
  | skip
  | error (error : String)

def createMessageStartEvent (context : ChunkConversionContext) : RawMessageStreamEvent :=
  .messageStart context.id context.model context.inputTokens

def createContentBlockStartEvent (index : Nat) (contentBlock : ContentBlock) :
    RawMessageStreamEvent :=
  .contentBlockStart index contentBlock

def convertStopReason (finishReason : String) : String :=
  if finishReason = "stop" then "end_turn"
  else if finishReason = "length" then "max_tokens"
  else if finishReason = "tool-calls" then "tool_use"
  else if finishReason = "content-filter" then "refusal"
  else "end_turn"

/-- The adapter.  The TS function mutates the context; here the updated
context is returned alongside the result. -/
def anthropicChunkFromAiSDK (chunk : AiSDKChunk) (context : ChunkConversionContext) :
    ChunkConversionResult × ChunkConversionContext :=
  match chunk with
  | .textStart _ =>
      if context.messageStarted then
        (.events [createContentBlockStartEvent context.contentBlockIndex (.text "")],
         context)
      else
        (.events [createMessageStartEvent context,
                  createContentBlockStartEvent context.contentBlockIndex (.text "")],
         { context with messageStarted := true })
  | .textDelta _ text =>
      (.events [.contentBlockDelta context.contentBlockIndex (.textDelta text)], context)
  | .textEnd _ =>
      (.events [.contentBlockStop context.contentBlockIndex],
       { context with contentBlockIndex := context.contentBlockIndex + 1 })
  | .reasoningStart _ =>
      if context.messageStarted then
        (.events [createContentBlockStartEvent context.contentBlockIndex (.thinking "" "")],
         context)
      else
        (.events [createMessageStartEvent context,
                  createContentBlockStartEvent context.contentBlockIndex (.thinking "" "")],
         { context with messageStarted := true })
  | .reasoningDelta _ text =>
      (.events [.contentBlockDelta context.contentBlockIndex (.thinkingDelta text)], context)
  | .reasoningEnd _ =>
      (.events [.contentBlockStop context.contentBlockIndex],
       { context with contentBlockIndex := context.contentBlockIndex + 1 })
  | .toolInputStart id toolName =>
      let context1 :=
        { context with
            toolCallIndices := mapSet context.toolCallIndices id context.contentBlockIndex
            toolCallInputs := mapSet context.toolCallInputs id "" }
      if context.messageStarted then
        (.events [createContentBlockStartEvent context.contentBlockIndex
                    (.toolUse id toolName (.obj []))],
         context1)
      else
        (.events [createMessageStartEvent context,
                  createContentBlockStartEvent context.contentBlockIndex
                    (.toolUse id toolName (.obj []))],
         { context1 with messageStarted := true })
  | .toolInputDelta id delta =>
      match mapGet? context.toolCallIndices id with
      | none => (.error ("Unknown tool call id: " ++ id), context)
      | some index =>
          let currentInput := (mapGet? context.toolCallInputs id).getD ""
          (.events [.contentBlockDelta index (.inputJsonDelta delta)],
           { context with
               toolCallInputs := mapSet context.toolCallInputs id (currentInput ++ delta) })
  | .toolInputEnd id =>
      match mapGet? context.toolCallIndices id with
      | none => (.error ("Unknown tool call id: " ++ id), context)
      | some index =>
          (.events [.contentBlockStop index],
           { context with contentBlockIndex := context.contentBlockIndex + 1 })
  | .toolCall toolCallId toolName input =>
      let index := context.contentBlockIndex
      let blockEvents : List RawMessageStreamEvent :=
        [createContentBlockStartEvent index (.toolUse toolCallId toolName (.obj [])),
         .contentBlockDelta index (.inputJsonDelta (jsonStringify input)),
         .contentBlockStop index]
      let context1 :=
        { context with
            toolCallIndices := mapSet context.toolCallIndices toolCallId index
            contentBlockIndex := index + 1 }
      if context.messageStarted then
        (.events blockEvents, context1)
      else
        (.events (createMessageStartEvent context :: blockEvents),
         { context1 with messageStarted := true })
  | .toolResult _ _ => (.skip, context)
  | .toolError _ _ => (.skip, context)
  | .finishStep usage _ =>
      let context1 :=
        match usage.inputTokens with
        | some n => { context with inputTokens := n }
        | none => context
      let context2 :=
        match usage.outputTokens with
        | some n => { context1 with outputTokens := n }
        | none => context1
      (.skip, context2)
  | .finish finishReason totalUsage =>
      let tailEvents : List RawMessageStreamEvent :=
        [.messageDelta (convertStopReason finishReason)
           { outputTokens := totalUsage.outputTokens.getD context.outputTokens
             inputTokens := totalUsage.inputTokens.getD context.inputTokens },
         .messageStop]
      if context.messageStarted then
        (.events tailEvents, context)
      else
        (.events (createMessageStartEvent context :: tailEvents),
         { context with messageStarted := true })
  | .start =>
      if context.messageStarted then (.skip, context)
      else
        (.events [createMessageStartEvent context], { context with messageStarted := true })
  | .startStep => (.skip, context)
  | .abort => (.skip, context)
  | .error e => (.error (jsStringOfError e), context)
  | .source => (.skip, context)
  | .file => (.skip, context)
  | .raw => (.skip, context)

def eventsOfResult : ChunkConversionResult → List RawMessageStreamEvent
  | .events es => es
  | .skip => []
  | .error _ => []

/-- Concatenation of the event lists returned over a whole input sequence
fed through one context. -/
def anthropicOutput : List AiSDKChunk → ChunkConversionContext → List RawMessageStreamEvent
  | [], _ => []
  | ch :: rest, context =>
      eventsOfResult (anthropicChunkFromAiSDK ch context).1 ++
        anthropicOutput rest (anthropicChunkFromAiSDK ch context).2

def isMessageStart : RawMessageStreamEvent → Bool
  | .messageStart _ _ _ => true
  | _ => false

def isContentBlockEvent : RawMessageStreamEvent → Bool
  | .contentBlockStart _ _ => true
  | .contentBlockDelta _ _ => true
  | .contentBlockStop _ => true
  | _ => false

/-- Number of envelope-open (message_start) events in an output list. -/
def msCount (events : List RawMessageStreamEvent) : Nat :=
  events.countP (fun e => isMessageStart e)

/-- Scans an output list carrying whether a message_start has been seen;
true when every content-block event is strictly preceded by a
message_start. -/
def msBeforeBlocks : Bool → List RawMessageStreamEvent → Bool
  | _, [] => true
  | seen, e :: rest =>
      (!isContentBlockEvent e || seen) && msBeforeBlocks (seen || isMessageStart e) rest

theorem msBeforeBlocks_append (l₁ l₂ : List RawMessageStreamEvent) :
    ∀ seen, msBeforeBlocks seen (l₁ ++ l₂)
      = (msBeforeBlocks seen l₁ &&
          msBeforeBlocks (seen || l₁.any (fun e => isMessageStart e)) l₂) := by
  induction l₁ with
  | nil => intro seen; simp [msBeforeBlocks]
  | cons e l ih =>
    intro seen
    simp [msBeforeBlocks, ih, Bool.or_assoc, Bool.and_assoc]

theorem anthropicOutput_cons (ch : AiSDKChunk) (rest : List AiSDKChunk)
    (c : ChunkConversionContext) :
    anthropicOutput (ch :: rest) c =
      eventsOfResult (anthropicChunkFromAiSDK ch c).1 ++
        anthropicOutput rest (anthropicChunkFromAiSDK ch c).2 := rfl

/-- Facts about a single adapter-A step needed for the envelope-open
invariant: how the messageStarted flag evolves, how many message_start
events the step emits, that the step emits no content-block event before a
message_start, and preservation of the side condition that a non-empty
tool-index map implies an open envelope. -/
theorem anthropic_step_facts (ch : AiSDKChunk) (c : ChunkConversionContext)
    (hopen : needsOpenBlock ch = true → c.messageStarted = true)
    (htool : c.toolCallIndices ≠ [] → c.messageStarted = true) :
    (anthropicChunkFromAiSDK ch c).2.messageStarted
        = (c.messageStarted || isEnvelopeTrigger ch) ∧
    msCount (eventsOfResult (anthropicChunkFromAiSDK ch c).1)
        = (if c.messageStarted then 0 else if isEnvelopeTrigger ch then 1 else 0) ∧
    msBeforeBlocks c.messageStarted (eventsOfResult (anthropicChunkFromAiSDK ch c).1)
        = true ∧
    ((c.messageStarted ||
        (eventsOfResult (anthropicChunkFromAiSDK ch c).1).any (fun e => isMessageStart e))
      = (anthropicChunkFromAiSDK ch c).2.messageStarted) ∧
    ((anthropicChunkFromAiSDK ch c).2.toolCallIndices ≠ [] →
        (anthropicChunkFromAiSDK ch c).2.messageStarted = true) := by
  cases ch with
  | textStart id =>
    by_cases hms : c.messageStarted = true <;>
      simp [anthropicChunkFromAiSDK, isEnvelopeTrigger, msCount, msBeforeBlocks,
        eventsOfResult, createMessageStartEvent, createContentBlockStartEvent,
        isMessageStart, isContentBlockEvent, hms, htool]
  | textDelta id text =>
    have h := hopen rfl
    simp [anthropicChunkFromAiSDK, isEnvelopeTrigger, msCount, msBeforeBlocks,
      eventsOfResult, isMessageStart, isContentBlockEvent, h, htool]
  | textEnd id =>
    have h := hopen rfl
    simp [anthropicChunkFromAiSDK, isEnvelopeTrigger, msCount, msBeforeBlocks,
      eventsOfResult, isMessageStart, isContentBlockEvent, h, htool]
  | reasoningStart id =>
    by_cases hms : c.messageStarted = true <;>
      simp [anthropicChunkFromAiSDK, isEnvelopeTrigger, msCount, msBeforeBlocks,
        eventsOfResult, createMessageStartEvent, createContentBlockStartEvent,
        isMessageStart, isContentBlockEvent, hms, htool]
  | reasoningDelta id text =>
    have h := hopen rfl
    simp [anthropicChunkFromAiSDK, isEnvelopeTrigger, msCount, msBeforeBlocks,
      eventsOfResult, isMessageStart, isContentBlockEvent, h, htool]
  | reasoningEnd id =>
    have h := hopen rfl
    simp [anthropicChunkFromAiSDK, isEnvelopeTrigger, msCount, msBeforeBlocks,
      eventsOfResult, isMessageStart, isContentBlockEvent, h, htool]
  | toolInputStart id toolName =>
    by_cases hms : c.messageStarted = true <;>
      simp [anthropicChunkFromAiSDK, isEnvelopeTrigger, msCount, msBeforeBlocks,
        eventsOfResult, createMessageStartEvent, createContentBlockStartEvent,
        isMessageStart, isContentBlockEvent, hms]
  | toolInputDelta id delta =>
    cases hidx : mapGet? c.toolCallIndices id with
    | none =>
      simp [anthropicChunkFromAiSDK, isEnvelopeTrigger, msCount, msBeforeBlocks,
        eventsOfResult, isMessageStart, isContentBlockEvent, hidx, htool]
      exact htool
    | some index =>
      have h := htool (mapGet?_ne_nil hidx)
      simp [anthropicChunkFromAiSDK, isEnvelopeTrigger, msCount, msBeforeBlocks,
        eventsOfResult, isMessageStart, isContentBlockEvent, hidx, h, htool]
  | toolInputEnd id =>
    cases hidx : mapGet? c.toolCallIndices id with
    | none =>
      simp [anthropicChunkFromAiSDK, isEnvelopeTrigger, msCount, msBeforeBlocks,
        eventsOfResult, isMessageStart, isContentBlockEvent, hidx, htool]
      exact htool
    | some index =>
      have h := htool (mapGet?_ne_nil hidx)
      simp [anthropicChunkFromAiSDK, isEnvelopeTrigger, msCount, msBeforeBlocks,
        eventsOfResult, isMessageStart, isContentBlockEvent, hidx, h, htool]
  | toolCall toolCallId toolName input =>
    by_cases hms : c.messageStarted = true <;>
      simp [anthropicChunkFromAiSDK, isEnvelopeTrigger, msCount, msBeforeBlocks,
        eventsOfResult, createMessageStartEvent, createContentBlockStartEvent,
        isMessageStart, isContentBlockEvent, hms]
  | toolResult toolCallId toolName =>
    simp [anthropicChunkFromAiSDK, isEnvelopeTrigger, msCount, msBeforeBlocks,
      eventsOfResult, isMessageStart, isContentBlockEvent, htool]
    exact htool
  | toolError toolCallId toolName =>
    simp [anthropicChunkFromAiSDK, isEnvelopeTrigger, msCount, msBeforeBlocks,
      eventsOfResult, isMessageStart, isContentBlockEvent, htool]
    exact htool
  | finishStep usage finishReason =>
    obtain ⟨ui, uo, ut⟩ := usage
    cases ui <;> cases uo <;>
      simp [anthropicChunkFromAiSDK, isEnvelopeTrigger, msCount, msBeforeBlocks,
        eventsOfResult, isMessageStart, isContentBlockEvent, htool] <;>
      exact htool
  | finish finishReason totalUsage =>
    by_cases hms : c.messageStarted = true <;>
      simp [anthropicChunkFromAiSDK, isEnvelopeTrigger, msCount, msBeforeBlocks,
        eventsOfResult, createMessageStartEvent, isMessageStart, isContentBlockEvent,
        hms, htool]
  | start =>
    by_cases hms : c.messageStarted = true <;>
      simp [anthropicChunkFromAiSDK, isEnvelopeTrigger, msCount, msBeforeBlocks,
        eventsOfResult, createMessageStartEvent, isMessageStart, isContentBlockEvent,
        hms, htool]
  | startStep =>
    simp [anthropicChunkFromAiSDK, isEnvelopeTrigger, msCount, msBeforeBlocks,
      eventsOfResult, isMessageStart, isContentBlockEvent, htool]
    exact htool
  | abort =>
    simp [anthropicChunkFromAiSDK, isEnvelopeTrigger, msCount, msBeforeBlocks,
      eventsOfResult, isMessageStart, isContentBlockEvent, htool]
    exact htool
  | error e =>
    simp [anthropicChunkFromAiSDK, isEnvelopeTrigger, msCount, msBeforeBlocks,
      eventsOfResult, isMessageStart, isContentBlockEvent, htool]
    exact htool
  | source =>
    simp [anthropicChunkFromAiSDK, isEnvelopeTrigger, msCount, msBeforeBlocks,
      eventsOfResult, isMessageStart, isContentBlockEvent, htool]
    exact htool
  | file =>
    simp [anthropicChunkFromAiSDK, isEnvelopeTrigger, msCount, msBeforeBlocks,
      eventsOfResult, isMessageStart, isContentBlockEvent, htool]
    exact htool
  | raw =>
    simp [anthropicChunkFromAiSDK, isEnvelopeTrigger, msCount, msBeforeBlocks,
      eventsOfResult, isMessageStart, isContentBlockEvent, htool]
    exact htool

/-- Folding one step into the tail of the run: the count and ordering
goals over the whole output follow from the step facts and the facts about
the rest of the run. -/
theorem anthropic_combine_step (ch : AiSDKChunk) (rest : List AiSDKChunk)
    (c : ChunkConversionContext)
    (h1 : (anthropicChunkFromAiSDK ch c).2.messageStarted
        = (c.messageStarted || isEnvelopeTrigger ch))
    (h2 : msCount (eventsOfResult (anthropicChunkFromAiSDK ch c).1)
        = (if c.messageStarted then 0 else if isEnvelopeTrigger ch then 1 else 0))
    (h3 : msBeforeBlocks c.messageStarted (eventsOfResult (anthropicChunkFromAiSDK ch c).1)
        = true)
    (h4 : (c.messageStarted ||
        (eventsOfResult (anthropicChunkFromAiSDK ch c).1).any (fun e => isMessageStart e))
      = (anthropicChunkFromAiSDK ch c).2.messageStarted)
    (ihc : msCount (anthropicOutput rest (anthropicChunkFromAiSDK ch c).2)
        = (if (anthropicChunkFromAiSDK ch c).2.messageStarted then 0
           else if rest.any isEnvelopeTrigger then 1 else 0))
    (ihb : msBeforeBlocks (anthropicChunkFromAiSDK ch c).2.messageStarted
        (anthropicOutput rest (anthropicChunkFromAiSDK ch c).2) = true) :
    msCount (anthropicOutput (ch :: rest) c)
        = (if c.messageStarted then 0 else if (ch :: rest).any isEnvelopeTrigger then 1 else 0) ∧
    msBeforeBlocks c.messageStarted (anthropicOutput (ch :: rest) c) = true := by
  rw [anthropicOutput_cons]
  constructor
  · rw [msCount, List.countP_append, ← msCount, ← msCount, h2, ihc, h1, List.any_cons]
    cases hms : c.messageStarted <;> cases ht : isEnvelopeTrigger ch <;> simp
  · rw [msBeforeBlocks_append, h3, h4, ihb]
    simp

/-- Envelope-open invariant for adapter A, generalized over a mid-stream
state: assuming the lifecycle-order input invariant relative to already
started spans, and that an opened span or recorded tool call implies an
already-open envelope, the output of the rest of the stream contains a
message_start exactly when the envelope is not yet open and a triggering
event remains, and never emits a content-block event before a
message_start. -/
theorem anthropic_envelope_invariant :
    ∀ (chunks : List AiSDKChunk) (ts rs : List String) (c : ChunkConversionContext),
      lifecycleOK ts rs chunks = true →
      (ts ≠ [] → c.messageStarted = true) →
      (rs ≠ [] → c.messageStarted = true) →
      (c.toolCallIndices ≠ [] → c.messageStarted = true) →
      msCount (anthropicOutput chunks c)
          = (if c.messageStarted then 0 else if chunks.any isEnvelopeTrigger then 1 else 0) ∧
      msBeforeBlocks c.messageStarted (anthropicOutput chunks c) = true := by
  intro chunks
  induction chunks with
  | nil =>
    intro ts rs c _ _ _ _
    simp [anthropicOutput, msCount, msBeforeBlocks]
  | cons ch rest ih =>
    intro ts rs c hl hts hrs htc
    have hopen : needsOpenBlock ch = true → c.messageStarted = true := by
      cases ch with
      | textDelta id text =>
        intro _
        simp only [lifecycleOK, Bool.and_eq_true] at hl
        exact hts (by rintro rfl; simp [List.contains] at hl)
      | textEnd id =>
        intro _
        simp only [lifecycleOK, Bool.and_eq_true] at hl
        exact hts (by rintro rfl; simp [List.contains] at hl)
      | reasoningDelta id text =>
        intro _
        simp only [lifecycleOK, Bool.and_eq_true] at hl
        exact hrs (by rintro rfl; simp [List.contains] at hl)
      | reasoningEnd id =>
        intro _
        simp only [lifecycleOK, Bool.and_eq_true] at hl
        exact hrs (by rintro rfl; simp [List.contains] at hl)
      | _ =>
        intro hfalse
        simp [needsOpenBlock] at hfalse
    obtain ⟨h1, h2, h3, h4, h5⟩ := anthropic_step_facts ch c hopen htc
    have hmono : c.messageStarted = true →
        (anthropicChunkFromAiSDK ch c).2.messageStarted = true := by
      intro h
      rw [h1, h]
      simp
    -- lifecycle invariant for the tail, with the updated span sets
    have htail : ∃ ts2 rs2,
        lifecycleOK ts2 rs2 rest = true ∧
        (ts2 ≠ [] → (anthropicChunkFromAiSDK ch c).2.messageStarted = true) ∧
        (rs2 ≠ [] → (anthropicChunkFromAiSDK ch c).2.messageStarted = true) := by
      cases ch with
      | textStart id =>
        simp only [lifecycleOK] at hl
        refine ⟨id :: ts, rs, hl, ?_, ?_⟩
        · intro _
          rw [h1]
          simp [isEnvelopeTrigger]
        · intro h
          exact hmono (hrs h)
      | reasoningStart id =>
        simp only [lifecycleOK] at hl
        refine ⟨ts, id :: rs, hl, ?_, ?_⟩
        · intro h
          exact hmono (hts h)
        · intro _
          rw [h1]
          simp [isEnvelopeTrigger]
      | textDelta id text =>
        simp only [lifecycleOK, Bool.and_eq_true] at hl
        exact ⟨ts, rs, hl.2, fun h => hmono (hts h), fun h => hmono (hrs h)⟩
      | textEnd id =>
        simp only [lifecycleOK, Bool.and_eq_true] at hl
        exact ⟨ts, rs, hl.2, fun h => hmono (hts h), fun h => hmono (hrs h)⟩
      | reasoningDelta id text =>
        simp only [lifecycleOK, Bool.and_eq_true] at hl
        exact ⟨ts, rs, hl.2, fun h => hmono (hts h), fun h => hmono (hrs h)⟩
      | reasoningEnd id =>
        simp only [lifecycleOK, Bool.and_eq_true] at hl
        exact ⟨ts, rs, hl.2, fun h => hmono (hts h), fun h => hmono (hrs h)⟩
      | _ =>
        simp only [lifecycleOK] at hl
        exact ⟨ts, rs, hl, fun h => hmono (hts h), fun h => hmono (hrs h)⟩
    obtain ⟨ts2, rs2, hl2, hts2, hrs2⟩ := htail
    have hrec := ih ts2 rs2 (anthropicChunkFromAiSDK ch c).2 hl2 hts2 hrs2 h5
    exact anthropic_combine_step ch rest c h1 h2 h3 h4 hrec.1 hrec.2

/-! ### Content-block index discipline (claim C3) -/

/-- The kind and id of the span currently open, if any. -/
inductive OpenSpan where
  | text (id : String)
  | reasoning (id : String)
  | tool (id : String)

def sameTextSpan : OpenSpan → String → Bool
  | .text id, id2 => id2 == id
  | _, _ => false

def sameReasoningSpan : OpenSpan → String → Bool
  | .reasoning id, id2 => id2 == id
  | _, _ => false

def sameToolSpan : OpenSpan → String → Bool
  | .tool id, id2 => id2 == id
  | _, _ => false

/-- Sequential-span discipline on a full stream: spans (text, reasoning,
streamed tool input) open, continue and close one at a time with matching
ids, complete tool calls arrive only between spans, and every span is
closed by the end of the stream.  Non-span events may appear anywhere. -/
def seqOK : Option OpenSpan → List AiSDKChunk → Bool
  | none, [] => true
  | some _, [] => false
  | none, ch :: rest =>
    match ch with
    | .textStart id => seqOK (some (.text id)) rest
    | .reasoningStart id => seqOK (some (.reasoning id)) rest
    | .toolInputStart id _ => seqOK (some (.tool id)) rest
    | .toolCall _ _ _ => seqOK none rest
    | .textDelta _ _ => false
    | .textEnd _ => false
    | .reasoningDelta _ _ => false
    | .reasoningEnd _ => false
    | .toolInputDelta _ _ => false
    | .toolInputEnd _ => false
    | _ => seqOK none rest
  | some sp, ch :: rest =>
    match ch with
    | .textStart _ => false
    | .reasoningStart _ => false
    | .toolInputStart _ _ => false
    | .toolCall _ _ _ => false
    | .textDelta id2 _ => sameTextSpan sp id2 && seqOK (some sp) rest
    | .textEnd id2 => sameTextSpan sp id2 && seqOK none rest
    | .reasoningDelta id2 _ => sameReasoningSpan sp id2 && seqOK (some sp) rest
    | .reasoningEnd id2 => sameReasoningSpan sp id2 && seqOK none rest
    | .toolInputDelta id2 _ => sameToolSpan sp id2 && seqOK (some sp) rest
    | .toolInputEnd id2 => sameToolSpan sp id2 && seqOK none rest
    | _ => seqOK (some sp) rest

/-- Checks the content-block discipline of an output event list: open-block
events carry indices 0, 1, 2, ... in order (no reuse, no gaps), every delta
and close carries the index of the block currently open, blocks do not
overlap, and no block is left open.  The first argument is the currently
open index, the second the next index to be opened. -/
def blocksOK : Option Nat → Nat → List RawMessageStreamEvent → Bool
  | cur, _, [] => cur.isNone
  | cur, next, e :: rest =>
    match e with
    | .contentBlockStart i _ =>
      match cur with
      | none => (i == next) && blocksOK (some i) (next + 1) rest
      | some _ => false
    | .contentBlockDelta i _ =>
      match cur with
      | some j => (i == j) && blocksOK cur next rest
      | none => false
    | .contentBlockStop i =>
      match cur with
      | some j => (i == j) && blocksOK none next rest
      | none => false
    | _ => blocksOK cur next rest

def curOf : Option OpenSpan → ChunkConversionContext → Option Nat
  | none, _ => none
  | some _, c => some c.contentBlockIndex

def nextOf : Option OpenSpan → ChunkConversionContext → Nat
  | none, c => c.contentBlockIndex
  | some _, c => c.contentBlockIndex + 1

/-- While a streamed tool-input span is open, the context maps its id to the
index of the block opened for it, which is the current block index. -/
def spanToolInv : Option OpenSpan → ChunkConversionContext → Prop
  | some (.tool id), c => mapGet? c.toolCallIndices id = some c.contentBlockIndex
  | _, _ => True

/-- Non-block events are transparent for the block-discipline checker. -/
theorem blocksOK_skip_nonblock :
    ∀ (es : List RawMessageStreamEvent),
      es.all (fun e => !isContentBlockEvent e) = true →
      ∀ (cur : Option Nat) (next : Nat) (l : List RawMessageStreamEvent),
        blocksOK cur next (es ++ l) = blocksOK cur next l := by
  intro es
  induction es with
  | nil => intro _ cur next l; simp
  | cons e es ih =>
    intro h cur next l
    rw [List.all_cons, Bool.and_eq_true] at h
    obtain ⟨he, hes⟩ := h
    cases e <;>
      first
      | (simpa [blocksOK] using ih hes cur next l)
      | (simp [isContentBlockEvent] at he)

theorem spanToolInv_carry (st : Option OpenSpan) (c c2 : ChunkConversionContext)
    (hidx : c2.contentBlockIndex = c.contentBlockIndex)
    (htci : c2.toolCallIndices = c.toolCallIndices)
    (hinv : spanToolInv st c) :
    spanToolInv st c2 ∧ curOf st c2 = curOf st c ∧ nextOf st c2 = nextOf st c := by
  cases st with
  | none => simp [spanToolInv, curOf, nextOf, hidx]
  | some sp =>
    cases sp <;> simp_all [spanToolInv, curOf, nextOf]

/-- Block-index invariant for adapter A: under the sequential-span
discipline, from a state where the checker state matches the context, the
output of the rest of the stream respects the content-block discipline. -/
theorem anthropic_blocks_invariant :
    ∀ (chunks : List AiSDKChunk) (st : Option OpenSpan) (c : ChunkConversionContext),
      seqOK st chunks = true →
      spanToolInv st c →
      blocksOK (curOf st c) (nextOf st c) (anthropicOutput chunks c) = true := by
  intro chunks
  induction chunks with
  | nil =>
    intro st c hseq hinv
    cases st with
    | none => simp [anthropicOutput, blocksOK, curOf]
    | some sp => simp [seqOK] at hseq
  | cons ch rest ih =>
    intro st c hseq hinv
    rw [anthropicOutput_cons]
    cases ch with
    | textStart id =>
      cases st with
      | none =>
        simp only [seqOK] at hseq
        have hrec := ih (some (.text id)) (anthropicChunkFromAiSDK (.textStart id) c).2
          hseq trivial
        by_cases hms : c.messageStarted = true <;>
          simp_all [anthropicChunkFromAiSDK, eventsOfResult, blocksOK, curOf, nextOf,
            createMessageStartEvent, createContentBlockStartEvent]
      | some sp => simp [seqOK] at hseq
    | textDelta id text =>
      cases st with
      | none => simp [seqOK] at hseq
      | some sp =>
        simp only [seqOK, Bool.and_eq_true] at hseq
        obtain ⟨hsp, hrest⟩ := hseq
        cases sp with
        | text id0 =>
          have hrec := ih (some (.text id0)) c hrest trivial
          simpa [anthropicChunkFromAiSDK, eventsOfResult, blocksOK, curOf, nextOf]
            using hrec
        | reasoning id0 => simp [sameTextSpan] at hsp
        | tool id0 => simp [sameTextSpan] at hsp
    | textEnd id =>
      cases st with
      | none => simp [seqOK] at hseq
      | some sp =>
        simp only [seqOK, Bool.and_eq_true] at hseq
        obtain ⟨hsp, hrest⟩ := hseq
        cases sp with
        | text id0 =>
          have hrec := ih none (anthropicChunkFromAiSDK (.textEnd id) c).2 hrest trivial
          simpa [anthropicChunkFromAiSDK, eventsOfResult, blocksOK, curOf, nextOf]
            using hrec
        | reasoning id0 => simp [sameTextSpan] at hsp
        | tool id0 => simp [sameTextSpan] at hsp
    | reasoningStart id =>
      cases st with
      | none =>
        simp only [seqOK] at hseq
        have hrec := ih (some (.reasoning id)) (anthropicChunkFromAiSDK (.reasoningStart id) c).2
          hseq trivial
        by_cases hms : c.messageStarted = true <;>
          simp_all [anthropicChunkFromAiSDK, eventsOfResult, blocksOK, curOf, nextOf,
            createMessageStartEvent, createContentBlockStartEvent]
      | some sp => simp [seqOK] at hseq
    | reasoningDelta id text =>
      cases st with
      | none => simp [seqOK] at hseq
      | some sp =>
        simp only [seqOK, Bool.and_eq_true] at hseq
        obtain ⟨hsp, hrest⟩ := hseq
        cases sp with
        | text id0 => simp [sameReasoningSpan] at hsp
        | reasoning id0 =>
          have hrec := ih (some (.reasoning id0)) c hrest trivial
          simpa [anthropicChunkFromAiSDK, eventsOfResult, blocksOK, curOf, nextOf]
            using hrec
        | tool id0 => simp [sameReasoningSpan] at hsp
    | reasoningEnd id =>
      cases st with
      | none => simp [seqOK] at hseq
      | some sp =>
        simp only [seqOK, Bool.and_eq_true] at hseq
        obtain ⟨hsp, hrest⟩ := hseq
        cases sp with
        | text id0 => simp [sameReasoningSpan] at hsp
        | reasoning id0 =>
          have hrec := ih none (anthropicChunkFromAiSDK (.reasoningEnd id) c).2 hrest trivial
          simpa [anthropicChunkFromAiSDK, eventsOfResult, blocksOK, curOf, nextOf]
            using hrec
        | tool id0 => simp [sameReasoningSpan] at hsp
    | toolInputStart id toolName =>
      cases st with
      | none =>
        simp only [seqOK] at hseq
        have hinv2 : spanToolInv (some (.tool id))
            (anthropicChunkFromAiSDK (.toolInputStart id toolName) c).2 := by
          by_cases hms : c.messageStarted = true <;>
            simp [anthropicChunkFromAiSDK, spanToolInv, hms, mapGet?_mapSet_self]
        have hrec := ih (some (.tool id))
          (anthropicChunkFromAiSDK (.toolInputStart id toolName) c).2 hseq hinv2
        by_cases hms : c.messageStarted = true <;>
          simp_all [anthropicChunkFromAiSDK, eventsOfResult, blocksOK, curOf, nextOf,
            createMessageStartEvent, createContentBlockStartEvent]
      | some sp => simp [seqOK] at hseq
    | toolInputDelta id delta =>
      cases st with
      | none => simp [seqOK] at hseq
      | some sp =>
        simp only [seqOK, Bool.and_eq_true] at hseq
        obtain ⟨hsp, hrest⟩ := hseq
        cases sp with
        | text id0 => simp [sameToolSpan] at hsp
        | reasoning id0 => simp [sameToolSpan] at hsp
        | tool id0 =>
          have hid : id = id0 := by simpa [sameToolSpan] using hsp
          subst hid
          have hlook : mapGet? c.toolCallIndices id = some c.contentBlockIndex := hinv
          have hinv2 : spanToolInv (some (.tool id))
              (anthropicChunkFromAiSDK (.toolInputDelta id delta) c).2 := by
            simp [anthropicChunkFromAiSDK, spanToolInv, hlook]
          have hrec := ih (some (.tool id))
            (anthropicChunkFromAiSDK (.toolInputDelta id delta) c).2 hrest hinv2
          simpa [anthropicChunkFromAiSDK, eventsOfResult, blocksOK, curOf, nextOf, hlook]
            using hrec
    | toolInputEnd id =>
      cases st with
      | none => simp [seqOK] at hseq
      | some sp =>
        simp only [seqOK, Bool.and_eq_true] at hseq
        obtain ⟨hsp, hrest⟩ := hseq
        cases sp with
        | text id0 => simp [sameToolSpan] at hsp
        | reasoning id0 => simp [sameToolSpan] at hsp
        | tool id0 =>
          have hid : id = id0 := by simpa [sameToolSpan] using hsp
          subst hid
          have hlook : mapGet? c.toolCallIndices id = some c.contentBlockIndex := hinv
          have hrec := ih none (anthropicChunkFromAiSDK (.toolInputEnd id) c).2 hrest trivial
          simpa [anthropicChunkFromAiSDK, eventsOfResult, blocksOK, curOf, nextOf, hlook]
            using hrec
    | toolCall toolCallId toolName input =>
      cases st with
      | none =>
        simp only [seqOK] at hseq
        have hrec := ih none (anthropicChunkFromAiSDK (.toolCall toolCallId toolName input) c).2
          hseq trivial
        by_cases hms : c.messageStarted = true <;>
          simp_all [anthropicChunkFromAiSDK, eventsOfResult, blocksOK, curOf, nextOf,
            createMessageStartEvent, createContentBlockStartEvent]
      | some sp => simp [seqOK] at hseq
    | toolResult toolCallId toolName =>
      cases st with
      | none =>
        simp only [seqOK] at hseq
        have hrec := ih none c hseq hinv
        simpa [anthropicChunkFromAiSDK, eventsOfResult, curOf, nextOf] using hrec
      | some sp =>
        simp only [seqOK] at hseq
        have hrec := ih (some sp) c hseq hinv
        simpa [anthropicChunkFromAiSDK, eventsOfResult, curOf, nextOf] using hrec
    | toolError toolCallId toolName =>
      cases st with
      | none =>
        simp only [seqOK] at hseq
        have hrec := ih none c hseq hinv
        simpa [anthropicChunkFromAiSDK, eventsOfResult, curOf, nextOf] using hrec
      | some sp =>
        simp only [seqOK] at hseq
        have hrec := ih (some sp) c hseq hinv
        simpa [anthropicChunkFromAiSDK, eventsOfResult, curOf, nextOf] using hrec
    | finishStep usage finishReason =>
      obtain ⟨ui, uo, ut⟩ := usage
      have hrec : ∀ (st2 : Option OpenSpan),
          seqOK st2 rest = true →
          spanToolInv st2 (anthropicChunkFromAiSDK
            (.finishStep ⟨ui, uo, ut⟩ finishReason) c).2 →
          blocksOK (curOf st2 (anthropicChunkFromAiSDK
              (.finishStep ⟨ui, uo, ut⟩ finishReason) c).2)
            (nextOf st2 (anthropicChunkFromAiSDK
              (.finishStep ⟨ui, uo, ut⟩ finishReason) c).2)
            (anthropicOutput rest (anthropicChunkFromAiSDK
              (.finishStep ⟨ui, uo, ut⟩ finishReason) c).2) = true :=
        fun st2 h1 h2 => ih st2 _ h1 h2
      cases st with
      | none =>
        simp only [seqOK] at hseq
        cases ui <;> cases uo <;>
          simpa [anthropicChunkFromAiSDK, eventsOfResult, blocksOK, curOf, nextOf]
            using hrec none hseq trivial
      | some sp =>
        simp only [seqOK] at hseq
        obtain ⟨hinv2, hcur, hnext⟩ := spanToolInv_carry (some sp) c
          (anthropicChunkFromAiSDK (.finishStep ⟨ui, uo, ut⟩ finishReason) c).2
          (by cases ui <;> cases uo <;> simp [anthropicChunkFromAiSDK])
          (by cases ui <;> cases uo <;> simp [anthropicChunkFromAiSDK])
          hinv
        have := hrec (some sp) hseq hinv2
        rw [hcur, hnext] at this
        cases ui <;> cases uo <;>
          simpa [anthropicChunkFromAiSDK, eventsOfResult, blocksOK, curOf, nextOf]
            using this
    | finish finishReason totalUsage =>
      have hrec : ∀ (st2 : Option OpenSpan),
          seqOK st2 rest = true →
          spanToolInv st2 (anthropicChunkFromAiSDK (.finish finishReason totalUsage) c).2 →
          blocksOK (curOf st2 (anthropicChunkFromAiSDK (.finish finishReason totalUsage) c).2)
            (nextOf st2 (anthropicChunkFromAiSDK (.finish finishReason totalUsage) c).2)
            (anthropicOutput rest
              (anthropicChunkFromAiSDK (.finish finishReason totalUsage) c).2) = true :=
        fun st2 h1 h2 => ih st2 _ h1 h2
      cases st with
      | none =>
        simp only [seqOK] at hseq
        by_cases hms : c.messageStarted = true <;>
          simpa [anthropicChunkFromAiSDK, eventsOfResult, blocksOK, curOf, nextOf, hms,
            createMessageStartEvent] using hrec none hseq trivial
      | some sp =>
        simp only [seqOK] at hseq
        obtain ⟨hinv2, hcur, hnext⟩ := spanToolInv_carry (some sp) c
          (anthropicChunkFromAiSDK (.finish finishReason totalUsage) c).2
          (by by_cases hms : c.messageStarted = true <;> simp [anthropicChunkFromAiSDK, hms])
          (by by_cases hms : c.messageStarted = true <;> simp [anthropicChunkFromAiSDK, hms])
          hinv
        have := hrec (some sp) hseq hinv2
        rw [hcur, hnext] at this
        by_cases hms : c.messageStarted = true <;>
          simpa [anthropicChunkFromAiSDK, eventsOfResult, blocksOK, curOf, nextOf, hms,
            createMessageStartEvent] using this
    | start =>
      have hrec : ∀ (st2 : Option OpenSpan),
          seqOK st2 rest = true →
          spanToolInv st2 (anthropicChunkFromAiSDK .start c).2 →
          blocksOK (curOf st2 (anthropicChunkFromAiSDK .start c).2)
            (nextOf st2 (anthropicChunkFromAiSDK .start c).2)
            (anthropicOutput rest (anthropicChunkFromAiSDK .start c).2) = true :=
        fun st2 h1 h2 => ih st2 _ h1 h2
      cases st with
      | none =>
        simp only [seqOK] at hseq
        by_cases hms : c.messageStarted = true <;>
          simpa [anthropicChunkFromAiSDK, eventsOfResult, blocksOK, curOf, nextOf, hms,
            createMessageStartEvent] using hrec none hseq trivial
      | some sp =>
        simp only [seqOK] at hseq
        obtain ⟨hinv2, hcur, hnext⟩ := spanToolInv_carry (some sp) c
          (anthropicChunkFromAiSDK .start c).2
          (by by_cases hms : c.messageStarted = true <;> simp [anthropicChunkFromAiSDK, hms])
          (by by_cases hms : c.messageStarted = true <;> simp [anthropicChunkFromAiSDK, hms])
          hinv
        have := hrec (some sp) hseq hinv2
        rw [hcur, hnext] at this
        by_cases hms : c.messageStarted = true <;>
          simpa [anthropicChunkFromAiSDK, eventsOfResult, blocksOK, curOf, nextOf, hms,
            createMessageStartEvent] using this
    | startStep =>
      cases st with
      | none =>
        simp only [seqOK] at hseq
        have hrec := ih none c hseq hinv
        simpa [anthropicChunkFromAiSDK, eventsOfResult, curOf, nextOf] using hrec
      | some sp =>
        simp only [seqOK] at hseq
        have hrec := ih (some sp) c hseq hinv
        simpa [anthropicChunkFromAiSDK, eventsOfResult, curOf, nextOf] using hrec
    | abort =>
      cases st with
      | none =>
        simp only [seqOK] at hseq
        have hrec := ih none c hseq hinv
        simpa [anthropicChunkFromAiSDK, eventsOfResult, curOf, nextOf] using hrec
      | some sp =>
        simp only [seqOK] at hseq
        have hrec := ih (some sp) c hseq hinv
        simpa [anthropicChunkFromAiSDK, eventsOfResult, curOf, nextOf] using hrec
    | error e =>
      cases st with
      | none =>
        simp only [seqOK] at hseq
        have hrec := ih none c hseq hinv
        simpa [anthropicChunkFromAiSDK, eventsOfResult, curOf, nextOf] using hrec
      | some sp =>
        simp only [seqOK] at hseq
        have hrec := ih (some sp) c hseq hinv
        simpa [anthropicChunkFromAiSDK, eventsOfResult, curOf, nextOf] using hrec
    | source =>
      cases st with
      | none =>
        simp only [seqOK] at hseq
        have hrec := ih none c hseq hinv
        simpa [anthropicChunkFromAiSDK, eventsOfResult, curOf, nextOf] using hrec
      | some sp =>
        simp only [seqOK] at hseq
        have hrec := ih (some sp) c hseq hinv
        simpa [anthropicChunkFromAiSDK, eventsOfResult, curOf, nextOf] using hrec
    | file =>
      cases st with
      | none =>
        simp only [seqOK] at hseq
        have hrec := ih none c hseq hinv
        simpa [anthropicChunkFromAiSDK, eventsOfResult, curOf, nextOf] using hrec
      | some sp =>
        simp only [seqOK] at hseq
        have hrec := ih (some sp) c hseq hinv
        simpa [anthropicChunkFromAiSDK, eventsOfResult, curOf, nextOf] using hrec
    | raw =>
      cases st with
      | none =>
        simp only [seqOK] at hseq
        have hrec := ih none c hseq hinv
        simpa [anthropicChunkFromAiSDK, eventsOfResult, curOf, nextOf] using hrec
      | some sp =>
        simp only [seqOK] at hseq
        have hrec := ih (some sp) c hseq hinv
        simpa [anthropicChunkFromAiSDK, eventsOfResult, curOf, nextOf] using hrec

end Anthropic

/-! ## Claim theorems for adapter A -/

/-- C1: for adapter A (anthropicChunkFromAiSDK), for any lifecycle-ordered
sequence of intermediate events fed through one conversion context that
contains at least one envelope-opening event (text-start, reasoning-start,
tool-input-start, tool-call, start, or finish), the message_start event
appears in the concatenation of all returned event lists exactly once, and
before any content-block event. -/
theorem anthropic_message_start_exactly_once (id model : String)
    (chunks : List AiSDKChunk)
    (hlife : lifecycleOK [] [] chunks = true)
    (htrig : chunks.any isEnvelopeTrigger = true) :
    Anthropic.msCount
        (Anthropic.anthropicOutput chunks (Anthropic.createChunkConversionContext id model))
      = 1 ∧
    Anthropic.msBeforeBlocks false
        (Anthropic.anthropicOutput chunks (Anthropic.createChunkConversionContext id model))
      = true := by
  have h := Anthropic.anthropic_envelope_invariant chunks [] []
    (Anthropic.createChunkConversionContext id model) hlife
    (by intro h; exact absurd rfl h)
    (by intro h; exact absurd rfl h)
    (by intro h; exact absurd rfl h)
  simpa [Anthropic.createChunkConversionContext, htrig] using h

/-- Witness for C1: a concrete stream opened by a text span. -/
theorem anthropic_message_start_exactly_once_witness :
    Anthropic.msCount
        (Anthropic.anthropicOutput
          [AiSDKChunk.textStart "t1", AiSDKChunk.textDelta "t1" "hi",
           AiSDKChunk.textEnd "t1",
           AiSDKChunk.finish "stop" ⟨some 1, some 2, some 3⟩]
          (Anthropic.createChunkConversionContext "msg" "model"))
      = 1 ∧
    Anthropic.msBeforeBlocks false
        (Anthropic.anthropicOutput
          [AiSDKChunk.textStart "t1", AiSDKChunk.textDelta "t1" "hi",
           AiSDKChunk.textEnd "t1",
           AiSDKChunk.finish "stop" ⟨some 1, some 2, some 3⟩]
          (Anthropic.createChunkConversionContext "msg" "model"))
      = true :=
  anthropic_message_start_exactly_once "msg" "model"
    [AiSDKChunk.textStart "t1", AiSDKChunk.textDelta "t1" "hi",
     AiSDKChunk.textEnd "t1", AiSDKChunk.finish "stop" ⟨some 1, some 2, some 3⟩]
    (by decide) (by decide)

/-- C3 counterexample: the claim as stated quantifies over all
lifecycle-ordered streams, but lifecycle ordering permits two spans to be
open at once, and then adapter A reuses a content-block index: the stream
[text-start a, text-start b, text-end a, text-end b] is lifecycle-ordered,
yet its output opens two blocks at index 0 and closes index 1 which was
never opened, violating the no-reuse/no-gap open-delta-close discipline. -/
theorem anthropic_block_indices_counterexample :
    lifecycleOK [] [] [AiSDKChunk.textStart "a", AiSDKChunk.textStart "b",
        AiSDKChunk.textEnd "a", AiSDKChunk.textEnd "b"] = true ∧
    Anthropic.anthropicOutput [AiSDKChunk.textStart "a", AiSDKChunk.textStart "b",
        AiSDKChunk.textEnd "a", AiSDKChunk.textEnd "b"]
        (Anthropic.createChunkConversionContext "id0" "m0") =
      [.messageStart "id0" "m0" 0,
       .contentBlockStart 0 (.text ""),
       .contentBlockStart 0 (.text ""),
       .contentBlockStop 0,
       .contentBlockStop 1] ∧
    Anthropic.blocksOK none 0
        (Anthropic.anthropicOutput [AiSDKChunk.textStart "a", AiSDKChunk.textStart "b",
          AiSDKChunk.textEnd "a", AiSDKChunk.textEnd "b"]
          (Anthropic.createChunkConversionContext "id0" "m0")) = false :=
  ⟨rfl, rfl, rfl⟩

/-- C3 (amended): for adapter A, over any full stream whose spans are
sequential (each text, reasoning or streamed tool-input span opens,
continues and closes with matching ids before the next span or complete
tool call begins, and all spans are closed by the end of the stream), the
distinct content-block indices in the emitted events are 0, 1, 2, ... with
no reuse and no gaps, and each block's open event, delta events and close
event appear in that relative order. -/
theorem anthropic_block_indices_gapless (id model : String)
    (chunks : List AiSDKChunk)
    (hseq : Anthropic.seqOK none chunks = true) :
    Anthropic.blocksOK none 0
        (Anthropic.anthropicOutput chunks (Anthropic.createChunkConversionContext id model))
      = true := by
  have h := Anthropic.anthropic_blocks_invariant chunks none
    (Anthropic.createChunkConversionContext id model) hseq trivial
  simpa [Anthropic.curOf, Anthropic.nextOf, Anthropic.createChunkConversionContext] using h

/-- Witness for C3 (amended): a concrete sequential stream with a text
span, a streamed tool-input span and a complete tool call. -/
theorem anthropic_block_indices_gapless_witness :
    Anthropic.blocksOK none 0
        (Anthropic.anthropicOutput
          [AiSDKChunk.start,
           AiSDKChunk.textStart "t", AiSDKChunk.textDelta "t" "hey", AiSDKChunk.textEnd "t",
           AiSDKChunk.toolInputStart "c1" "get_weather",
           AiSDKChunk.toolInputDelta "c1" "\x7b\x7d", AiSDKChunk.toolInputEnd "c1",
           AiSDKChunk.toolCall "c2" "lookup" (Json.obj []),
           AiSDKChunk.finish "tool-calls" ⟨some 3, some 4, some 7⟩]
          (Anthropic.createChunkConversionContext "msg2" "model2"))
      = true :=
  anthropic_block_indices_gapless "msg2" "model2"
    [AiSDKChunk.start,
     AiSDKChunk.textStart "t", AiSDKChunk.textDelta "t" "hey", AiSDKChunk.textEnd "t",
     AiSDKChunk.toolInputStart "c1" "get_weather",
     AiSDKChunk.toolInputDelta "c1" "\x7b\x7d", AiSDKChunk.toolInputEnd "c1",
     AiSDKChunk.toolCall "c2" "lookup" (Json.obj []),
     AiSDKChunk.finish "tool-calls" ⟨some 3, some 4, some 7⟩]
    (by decide)

/-- C7: feeding the nine-event text-only scenario to adapter A with a fresh
context yields, in order: message_start, content_block_start(0),
three text deltas at index 0, content_block_stop(0), message_delta with
stop reason end_turn (mapped from stop) and usage 10/5, and message_stop:
eight events in total. -/
theorem anthropic_text_scenario (id model : String) :
    Anthropic.anthropicOutput
        [AiSDKChunk.start, AiSDKChunk.startStep,
         AiSDKChunk.textStart "t1",
         AiSDKChunk.textDelta "t1" "Hello",
         AiSDKChunk.textDelta "t1" ", ",
         AiSDKChunk.textDelta "t1" "world!",
         AiSDKChunk.textEnd "t1",
         AiSDKChunk.finishStep ⟨some 10, some 5, some 15⟩ "stop",
         AiSDKChunk.finish "stop" ⟨some 10, some 5, some 15⟩]
        (Anthropic.createChunkConversionContext id model) =
      [.messageStart id model 0,
       .contentBlockStart 0 (.text ""),
       .contentBlockDelta 0 (.textDelta "Hello"),
       .contentBlockDelta 0 (.textDelta ", "),
       .contentBlockDelta 0 (.textDelta "world!"),
       .contentBlockStop 0,
       .messageDelta "end_turn" { outputTokens := 5, inputTokens := 10 },
       .messageStop] := rfl

/-! ## Adapter B: openaiChunkFromAiSDK (src/openai/chat-completion/chunk-from-ai.ts) -/

namespace Openai

structure CompletionUsage where
  promptTokens : Nat
  completionTokens : Nat
  totalTokens : Nat
deriving DecidableEq

structure DeltaFunction where
  name : Option String
  arguments : String
deriving DecidableEq

/-- One entry of a chunk delta's tool-call array (the nested function
object is flattened into func). -/
structure DeltaToolCall where
  index : Nat
  id : Option String
  type : Option String
  func : DeltaFunction
deriving DecidableEq

structure ChunkDelta where
  role : Option String
  content : Option String
  toolCalls : Option (List DeltaToolCall)
deriving DecidableEq

/-- An OpenAI ChatCompletionChunk; the single-element choices array is
flattened (choice index 0 and null logprobs are constant). -/
structure ChatCompletionChunk where
  id : String
  object : String
  created : Nat
  model : String
  delta : ChunkDelta
  finishReason : Option String
  usage : Option CompletionUsage
deriving DecidableEq

structure ChunkConversionContext where
  id : String
  model : String
  created : Nat
  toolCallIndices : List (String × Nat)
  nextToolCallIndex : Nat
deriving DecidableEq

/-- Context constructor; the source defaults created to the wall clock when
the caller omits it, so the timestamp is taken here as an argument. -/
def createChunkConversionContext (id model : String) (created : Nat) :
    ChunkConversionContext where
  id := id
  model := model
  created := created
  toolCallIndices := []
  nextToolCallIndex := 0

inductive ChunkConversionResult where
  | chunk (chunk : ChatCompletionChunk)
  | skip
  | error (error : String)
deriving DecidableEq

def createChunk (context : ChunkConversionContext) (delta : ChunkDelta)
    (finishReason : Option String) (usage : Option CompletionUsage) :
    ChatCompletionChunk where
  id := context.id
  object := "chat.completion.chunk"
  created := context.created
  model := context.model
  delta := delta
  finishReason := finishReason
  usage := usage

def convertFinishReason (finishReason : String) : String :=
  if finishReason = "stop" then "stop"
  else if finishReason = "length" then "length"
  else if finishReason = "content-filter" then "content_filter"
  else if finishReason = "tool-calls" then "tool_calls"
  else "stop"

def convertUsage (usage : LanguageModelUsage) : CompletionUsage where
  promptTokens := usage.inputTokens.getD 0
  completionTokens := usage.outputTokens.getD 0
  totalTokens := usage.totalTokens.getD ((usage.inputTokens.getD 0) + (usage.outputTokens.getD 0))

def openaiChunkFromAiSDK (chunk : AiSDKChunk) (context : ChunkConversionContext) :
    ChunkConversionResult × ChunkConversionContext :=
  match chunk with
  | .textDelta _ text =>
      (.chunk (createChunk context
        { role := none, content := some text, toolCalls := none } none none), context)
  | .textStart _ =>
      (.chunk (createChunk context
        { role := some "assistant", content := some "", toolCalls := none } none none),
       context)
  | .textEnd _ => (.skip, context)
  | .reasoningDelta _ _ => (.skip, context)
  | .reasoningStart _ => (.skip, context)
  | .reasoningEnd _ => (.skip, context)
  | .toolInputStart id toolName =>
      let (index, context1) :=
        match mapGet? context.toolCallIndices id with
        | some index => (index, context)
        | none =>
            (context.nextToolCallIndex,
             { context with
                 nextToolCallIndex := context.nextToolCallIndex + 1
                 toolCallIndices :=
                   mapSet context.toolCallIndices id context.nextToolCallIndex })
      (.chunk (createChunk context
        { role := none, content := none
          toolCalls := some [{ index := index, id := some id, type := some "function",
                               func := { name := some toolName, arguments := "" } }] }
        none none),
       context1)
  | .toolInputDelta id delta =>
      match mapGet? context.toolCallIndices id with
      | none => (.error ("Unknown tool call id: " ++ id), context)
      | some index =>
          (.chunk (createChunk context
            { role := none, content := none
              toolCalls := some [{ index := index, id := none, type := none,
                                   func := { name := none, arguments := delta } }] }
            none none),
           context)
  | .toolInputEnd _ => (.skip, context)
  | .toolCall toolCallId toolName input =>
      let (index, context1) :=
        match mapGet? context.toolCallIndices toolCallId with
        | some index => (index, context)
        | none =>
            (context.nextToolCallIndex,
             { context with
                 nextToolCallIndex := context.nextToolCallIndex + 1
                 toolCallIndices :=
                   mapSet context.toolCallIndices toolCallId context.nextToolCallIndex })
      (.chunk (createChunk context
        { role := none, content := none
          toolCalls := some [{ index := index, id := some toolCallId,
                               type := some "function",
                               func := { name := some toolName,
                                         arguments := jsonStringify input } }] }
        none none),
       context1)
  | .toolResult _ _ => (.skip, context)
  | .toolError _ _ => (.skip, context)
  | .finishStep usage finishReason =>
      (.chunk (createChunk context { role := none, content := none, toolCalls := none }
        (some (convertFinishReason finishReason)) (some (convertUsage usage))), context)
  | .finish finishReason totalUsage =>
      (.chunk (createChunk context { role := none, content := none, toolCalls := none }
        (some (convertFinishReason finishReason)) (some (convertUsage totalUsage))), context)
  | .start => (.skip, context)
  | .startStep => (.skip, context)
  | .abort => (.skip, context)
  | .error e => (.error (jsStringOfError e), context)
  | .source => (.skip, context)
  | .file => (.skip, context)
  | .raw => (.skip, context)

def openaiRunCtx : List AiSDKChunk → ChunkConversionContext → ChunkConversionContext
  | [], c => c
  | ch :: rest, c => openaiRunCtx rest (openaiChunkFromAiSDK ch c).2

/-! ### Tool-call index bookkeeping (claim C5) -/

def toolIdOf : AiSDKChunk → Option String
  | .toolInputStart id _ => some id
  | .toolCall id _ _ => some id
  | _ => none

/-- Ids of tool calls in order of first appearance (via tool-input-start or
tool-call), excluding the already seen ones. -/
def firstToolIds : List String → List AiSDKChunk → List String
  | _, [] => []
  | seen, ch :: rest =>
    match toolIdOf ch with
    | some id =>
        if seen.contains id then firstToolIds seen rest
        else id :: firstToolIds (seen ++ [id]) rest
    | none => firstToolIds seen rest

def idxOf? : List String → String → Option Nat
  | [], _ => none
  | x :: xs, id => if x = id then some 0 else (idxOf? xs id).map (· + 1)

def enumFrom : Nat → List String → List (String × Nat)
  | _, [] => []
  | n, x :: xs => (x, n) :: enumFrom (n + 1) xs

/-- The tool-call array indices reported by the chunks emitted for
tool-input-delta events with the given id over a run. -/
def reportedDeltaIndices (id : String) : List AiSDKChunk → ChunkConversionContext → List Nat
  | [], _ => []
  | ch :: rest, c =>
    (match ch with
     | .toolInputDelta id2 _ =>
       (match (openaiChunkFromAiSDK ch c).1 with
        | .chunk k =>
            if id2 = id then (k.delta.toolCalls.getD []).map (fun tc => tc.index) else []
        | _ => [])
     | _ => []) ++ reportedDeltaIndices id rest (openaiChunkFromAiSDK ch c).2

theorem mapGet?_enumFrom :
    ∀ (ids : List String) (n : Nat) (id : String),
      mapGet? (enumFrom n ids) id = (idxOf? ids id).map (· + n) := by
  intro ids
  induction ids with
  | nil => intro n id; simp [enumFrom, idxOf?, mapGet?]
  | cons x xs ih =>
    intro n id
    by_cases hx : x = id
    · simp [enumFrom, idxOf?, mapGet?, hx]
    · cases hidx : idxOf? xs id with
      | none => simp [enumFrom, idxOf?, mapGet?, hx, ih, hidx]
      | some j =>
        simp [enumFrom, idxOf?, mapGet?, hx, ih, hidx]
        omega

theorem idxOf?_append_of_some :
    ∀ (l l2 : List String) (id : String) (i : Nat),
      idxOf? l id = some i → idxOf? (l ++ l2) id = some i := by
  intro l
  induction l with
  | nil => intro l2 id i h; simp [idxOf?] at h
  | cons x xs ih =>
    intro l2 id i h
    by_cases hx : x = id
    · simp [idxOf?, hx] at h ⊢
      exact h
    · simp [idxOf?, hx] at h ⊢
      obtain ⟨j, hj, hji⟩ := h
      exact ⟨j, ih l2 id j hj, hji⟩

theorem idxOf?_isSome_eq_contains :
    ∀ (l : List String) (id : String), (idxOf? l id).isSome = l.contains id := by
  intro l
  induction l with
  | nil => intro id; simp [idxOf?]
  | cons x xs ih =>
    intro id
    by_cases hx : x = id
    · simp [idxOf?, hx, List.contains_cons]
    · cases hidx : idxOf? xs id with
      | none =>
        have hmem : ¬ id ∈ xs := by
          have := ih id
          rw [hidx] at this
          simpa using this.symm
        simp [idxOf?, hx, hidx, List.contains_cons, hmem]
        exact fun h => hx h.symm
      | some j =>
        have hmem : id ∈ xs := by
          have := ih id
          rw [hidx] at this
          simpa using this.symm
        simp [idxOf?, hx, hidx, List.contains_cons, hmem]

theorem mapSet_enumFrom_fresh :
    ∀ (ids : List String) (n : Nat) (id : String),
      idxOf? ids id = none →
      mapSet (enumFrom n ids) id (n + ids.length) = enumFrom n (ids ++ [id]) := by
  intro ids
  induction ids with
  | nil => intro n id _; simp [enumFrom, mapSet]
  | cons x xs ih =>
    intro n id h
    by_cases hx : x = id
    · simp [idxOf?, hx] at h
    · have hxs : idxOf? xs id = none := by
        simp [idxOf?, hx] at h
        cases hidx : idxOf? xs id with
        | none => rfl
        | some j => rw [hidx] at h; simp at h
      have := ih (n + 1) id hxs
      simp [enumFrom, mapSet, hx, List.length_cons]
      rw [show n + (xs.length + 1) = n + 1 + xs.length by omega]
      exact this

theorem mapGet?_enumFrom_zero (ids : List String) (id : String) :
    mapGet? (enumFrom 0 ids) id = idxOf? ids id := by
  rw [mapGet?_enumFrom]
  cases idxOf? ids id <;> simp

/-- Run invariant for the reported tool-call indices: if the context's
index map enumerates the already seen ids in order, every index reported
for a tool-input-delta of the given id over the rest of the run is the
position of that id in first-appearance order. -/
theorem openai_reported_indices_aux :
    ∀ (chunks : List AiSDKChunk) (ids : List String) (c : ChunkConversionContext)
      (id : String),
      c.toolCallIndices = enumFrom 0 ids →
      c.nextToolCallIndex = ids.length →
      ∀ i ∈ reportedDeltaIndices id chunks c,
        idxOf? (ids ++ firstToolIds ids chunks) id = some i := by
  intro chunks
  induction chunks with
  | nil =>
    intro ids c id _ _ i hi
    simp [reportedDeltaIndices] at hi
  | cons ch rest ih =>
    intro ids c id hmap hnext i hi
    cases ch with
    | toolInputStart id2 toolName =>
      simp only [reportedDeltaIndices] at hi
      cases hfound : mapGet? c.toolCallIndices id2 with
      | some idx =>
        have hcont : id2 ∈ ids := by
          have h2 : ids.contains id2 = true := by
            rw [← idxOf?_isSome_eq_contains]
            rw [hmap, mapGet?_enumFrom_zero] at hfound
            simp [hfound]
          simpa using h2
        simp only [openaiChunkFromAiSDK, hfound, List.nil_append] at hi
        have := ih ids c id hmap hnext i hi
        simpa [firstToolIds, toolIdOf, hcont] using this
      | none =>
        have hcont : ¬ id2 ∈ ids := by
          have h2 : ids.contains id2 = false := by
            rw [← idxOf?_isSome_eq_contains]
            rw [hmap, mapGet?_enumFrom_zero] at hfound
            simp [hfound]
          simpa using h2
        have hfresh : idxOf? ids id2 = none := by
          rw [hmap, mapGet?_enumFrom_zero] at hfound
          exact hfound
        simp only [openaiChunkFromAiSDK, hfound, List.nil_append] at hi
        have hmap2 : (({ c with
            nextToolCallIndex := c.nextToolCallIndex + 1
            toolCallIndices := mapSet c.toolCallIndices id2 c.nextToolCallIndex } :
              ChunkConversionContext)).toolCallIndices = enumFrom 0 (ids ++ [id2]) := by
          have := mapSet_enumFrom_fresh ids 0 id2 hfresh
          rw [Nat.zero_add] at this
          simp [hmap, hnext, this]
        have hnext2 : (({ c with
            nextToolCallIndex := c.nextToolCallIndex + 1
            toolCallIndices := mapSet c.toolCallIndices id2 c.nextToolCallIndex } :
              ChunkConversionContext)).nextToolCallIndex = (ids ++ [id2]).length := by
          simp [hnext]
        have := ih (ids ++ [id2]) _ id hmap2 hnext2 i hi
        simpa [firstToolIds, toolIdOf, hcont, List.append_assoc] using this
    | toolCall id2 toolName input =>
      simp only [reportedDeltaIndices] at hi
      cases hfound : mapGet? c.toolCallIndices id2 with
      | some idx =>
        have hcont : id2 ∈ ids := by
          have h2 : ids.contains id2 = true := by
            rw [← idxOf?_isSome_eq_contains]
            rw [hmap, mapGet?_enumFrom_zero] at hfound
            simp [hfound]
          simpa using h2
        simp only [openaiChunkFromAiSDK, hfound, List.nil_append] at hi
        have := ih ids c id hmap hnext i hi
        simpa [firstToolIds, toolIdOf, hcont] using this
      | none =>
        have hcont : ¬ id2 ∈ ids := by
          have h2 : ids.contains id2 = false := by
            rw [← idxOf?_isSome_eq_contains]
            rw [hmap, mapGet?_enumFrom_zero] at hfound
            simp [hfound]
          simpa using h2
        have hfresh : idxOf? ids id2 = none := by
          rw [hmap, mapGet?_enumFrom_zero] at hfound
          exact hfound
        simp only [openaiChunkFromAiSDK, hfound, List.nil_append] at hi
        have hmap2 : (({ c with
            nextToolCallIndex := c.nextToolCallIndex + 1
            toolCallIndices := mapSet c.toolCallIndices id2 c.nextToolCallIndex } :
              ChunkConversionContext)).toolCallIndices = enumFrom 0 (ids ++ [id2]) := by
          have := mapSet_enumFrom_fresh ids 0 id2 hfresh
          rw [Nat.zero_add] at this
          simp [hmap, hnext, this]
        have hnext2 : (({ c with
            nextToolCallIndex := c.nextToolCallIndex + 1
            toolCallIndices := mapSet c.toolCallIndices id2 c.nextToolCallIndex } :
              ChunkConversionContext)).nextToolCallIndex = (ids ++ [id2]).length := by
          simp [hnext]
        have := ih (ids ++ [id2]) _ id hmap2 hnext2 i hi
        simpa [firstToolIds, toolIdOf, hcont, List.append_assoc] using this
    | toolInputDelta id2 delta =>
      simp only [reportedDeltaIndices] at hi
      cases hfound : mapGet? c.toolCallIndices id2 with
      | none =>
        simp only [openaiChunkFromAiSDK, hfound, List.nil_append] at hi
        have := ih ids c id hmap hnext i hi
        simpa [firstToolIds, toolIdOf] using this
      | some idx =>
        simp only [openaiChunkFromAiSDK, hfound, createChunk] at hi
        by_cases hid : id2 = id
        · rw [if_pos hid] at hi
          simp only [Option.getD_some, List.map_cons, List.map_nil,
            List.singleton_append] at hi
          rw [List.mem_cons] at hi
          rcases hi with hii | hii
          · have hids : idxOf? ids id = some idx := by
              rw [hmap, mapGet?_enumFrom_zero] at hfound
              rw [← hid]
              exact hfound
            rw [hii]
            exact idxOf?_append_of_some ids _ id idx hids
          · have := ih ids c id hmap hnext i hii
            simpa [firstToolIds, toolIdOf] using this
        · rw [if_neg hid, List.nil_append] at hi
          have := ih ids c id hmap hnext i hi
          simpa [firstToolIds, toolIdOf] using this
    | _ =>
      simp only [reportedDeltaIndices] at hi
      simp only [openaiChunkFromAiSDK, List.nil_append] at hi
      exact by simpa [firstToolIds, toolIdOf] using ih ids c id hmap hnext i hi

/-- Run invariant for the final context: the index map enumerates all
distinct tool-call ids in order of first appearance. -/
theorem openai_runCtx_indices_aux :
    ∀ (chunks : List AiSDKChunk) (ids : List String) (c : ChunkConversionContext),
      c.toolCallIndices = enumFrom 0 ids →
      c.nextToolCallIndex = ids.length →
      (openaiRunCtx chunks c).toolCallIndices
          = enumFrom 0 (ids ++ firstToolIds ids chunks) ∧
      (openaiRunCtx chunks c).nextToolCallIndex
          = (ids ++ firstToolIds ids chunks).length := by
  intro chunks
  induction chunks with
  | nil =>
    intro ids c hmap hnext
    simp [openaiRunCtx, firstToolIds, hmap, hnext]
  | cons ch rest ih =>
    intro ids c hmap hnext
    cases ch with
    | toolInputStart id2 toolName =>
      cases hfound : mapGet? c.toolCallIndices id2 with
      | some idx =>
        have hcont : id2 ∈ ids := by
          have h2 : ids.contains id2 = true := by
            rw [← idxOf?_isSome_eq_contains]
            rw [hmap, mapGet?_enumFrom_zero] at hfound
            simp [hfound]
          simpa using h2
        have := ih ids c hmap hnext
        simpa [openaiRunCtx, openaiChunkFromAiSDK, hfound, firstToolIds, toolIdOf, hcont]
          using this
      | none =>
        have hcont : ¬ id2 ∈ ids := by
          have h2 : ids.contains id2 = false := by
            rw [← idxOf?_isSome_eq_contains]
            rw [hmap, mapGet?_enumFrom_zero] at hfound
            simp [hfound]
          simpa using h2
        have hfresh : idxOf? ids id2 = none := by
          rw [hmap, mapGet?_enumFrom_zero] at hfound
          exact hfound
        have hmap2 : (({ c with
            nextToolCallIndex := c.nextToolCallIndex + 1
            toolCallIndices := mapSet c.toolCallIndices id2 c.nextToolCallIndex } :
              ChunkConversionContext)).toolCallIndices = enumFrom 0 (ids ++ [id2]) := by
          have := mapSet_enumFrom_fresh ids 0 id2 hfresh
          rw [Nat.zero_add] at this
          simp [hmap, hnext, this]
        have hnext2 : (({ c with
            nextToolCallIndex := c.nextToolCallIndex + 1
            toolCallIndices := mapSet c.toolCallIndices id2 c.nextToolCallIndex } :
              ChunkConversionContext)).nextToolCallIndex = (ids ++ [id2]).length := by
          simp [hnext]
        have := ih (ids ++ [id2]) _ hmap2 hnext2
        simpa [openaiRunCtx, openaiChunkFromAiSDK, hfound, firstToolIds, toolIdOf, hcont,
          List.append_assoc] using this
    | toolCall id2 toolName input =>
      cases hfound : mapGet? c.toolCallIndices id2 with
      | some idx =>
        have hcont : id2 ∈ ids := by
          have h2 : ids.contains id2 = true := by
            rw [← idxOf?_isSome_eq_contains]
            rw [hmap, mapGet?_enumFrom_zero] at hfound
            simp [hfound]
          simpa using h2
        have := ih ids c hmap hnext
        simpa [openaiRunCtx, openaiChunkFromAiSDK, hfound, firstToolIds, toolIdOf, hcont]
          using this
      | none =>
        have hcont : ¬ id2 ∈ ids := by
          have h2 : ids.contains id2 = false := by
            rw [← idxOf?_isSome_eq_contains]
            rw [hmap, mapGet?_enumFrom_zero] at hfound
            simp [hfound]
          simpa using h2
        have hfresh : idxOf? ids id2 = none := by
          rw [hmap, mapGet?_enumFrom_zero] at hfound
          exact hfound
        have hmap2 : (({ c with
            nextToolCallIndex := c.nextToolCallIndex + 1
            toolCallIndices := mapSet c.toolCallIndices id2 c.nextToolCallIndex } :
              ChunkConversionContext)).toolCallIndices = enumFrom 0 (ids ++ [id2]) := by
          have := mapSet_enumFrom_fresh ids 0 id2 hfresh
          rw [Nat.zero_add] at this
          simp [hmap, hnext, this]
        have hnext2 : (({ c with
            nextToolCallIndex := c.nextToolCallIndex + 1
            toolCallIndices := mapSet c.toolCallIndices id2 c.nextToolCallIndex } :
              ChunkConversionContext)).nextToolCallIndex = (ids ++ [id2]).length := by
          simp [hnext]
        have := ih (ids ++ [id2]) _ hmap2 hnext2
        simpa [openaiRunCtx, openaiChunkFromAiSDK, hfound, firstToolIds, toolIdOf, hcont,
          List.append_assoc] using this
    | toolInputDelta id2 delta =>
      cases hfound : mapGet? c.toolCallIndices id2 with
      | none =>
        have := ih ids c hmap hnext
        simpa [openaiRunCtx, openaiChunkFromAiSDK, hfound, firstToolIds, toolIdOf] using this
      | some idx =>
        have := ih ids c hmap hnext
        simpa [openaiRunCtx, openaiChunkFromAiSDK, hfound, firstToolIds, toolIdOf] using this
    | _ =>
      exact by
        simpa [openaiRunCtx, openaiChunkFromAiSDK, firstToolIds, toolIdOf]
          using ih ids c hmap hnext

end Openai

/-! ## Claim theorem for adapter B -/

/-- C5: for adapter B (openaiChunkFromAiSDK), every chunk emitted for a
tool-input-delta with a given id reports the index that is the position of
that id among the distinct tool-call ids in order of first appearance (via
tool-input-start or tool-call); hence any two delta chunks for the same id
report the same index, and distinct ids receive indices 0, 1, 2, ... in
first-appearance order (the final context's index map enumerates exactly
those ids in order). -/
theorem openai_tool_index_stability (id0 model : String) (created : Nat)
    (chunks : List AiSDKChunk) (id : String) :
    (∀ i ∈ Openai.reportedDeltaIndices id chunks
        (Openai.createChunkConversionContext id0 model created),
      Openai.idxOf? (Openai.firstToolIds [] chunks) id = some i) ∧
    (Openai.openaiRunCtx chunks
        (Openai.createChunkConversionContext id0 model created)).toolCallIndices
      = Openai.enumFrom 0 (Openai.firstToolIds [] chunks) := by
  constructor
  · intro i hi
    have := Openai.openai_reported_indices_aux chunks []
      (Openai.createChunkConversionContext id0 model created) id rfl rfl i hi
    simpa using this
  · have := Openai.openai_runCtx_indices_aux chunks []
      (Openai.createChunkConversionContext id0 model created) rfl rfl
    simpa using this.1

/-- Witness for C5: two interleaved streamed tool calls; the deltas of the
second id all report index 1, and the final map enumerates both ids. -/
theorem openai_tool_index_stability_witness :
    Openai.idxOf? (Openai.firstToolIds []
        [AiSDKChunk.toolInputStart "call_1" "get_weather",
         AiSDKChunk.toolInputDelta "call_1" "\x7b\"location\"",
         AiSDKChunk.toolInputStart "call_2" "lookup",
         AiSDKChunk.toolInputDelta "call_2" "\x7b\x7d",
         AiSDKChunk.toolInputDelta "call_1" ":\"SF\"\x7d"]) "call_2" = some 1 :=
  (openai_tool_index_stability "cid" "m" 123
    [AiSDKChunk.toolInputStart "call_1" "get_weather",
     AiSDKChunk.toolInputDelta "call_1" "\x7b\"location\"",
     AiSDKChunk.toolInputStart "call_2" "lookup",
     AiSDKChunk.toolInputDelta "call_2" "\x7b\x7d",
     AiSDKChunk.toolInputDelta "call_1" ":\"SF\"\x7d"] "call_2").1 1 (by decide)


/-! ## Adapter C: googleChunkFromAiSDK (google/genai chunk-from-ai) -/

namespace Google

structure FunctionCallAccum where
  name : String
  args : String
deriving DecidableEq

structure ChunkConversionContext where
  responseId : String
  modelVersion : String
  accumulatedText : String
  accumulatedFunctionCalls : List (String × FunctionCallAccum)
  inputTokens : Nat
  outputTokens : Nat
deriving DecidableEq

def createChunkConversionContext (responseId modelVersion : String) :
    ChunkConversionContext where
  responseId := responseId
  modelVersion := modelVersion
  accumulatedText := ""
  accumulatedFunctionCalls := []
  inputTokens := 0
  outputTokens := 0

inductive GooglePart where
  | text (text : String)
  | functionCall (id : String) (name : String) (args : Json)

structure GoogleContent where
  role : String
  parts : List GooglePart

structure UsageMetadata where
  promptTokenCount : Nat
  candidatesTokenCount : Nat
  totalTokenCount : Nat
deriving DecidableEq

structure Candidate where
  content : GoogleContent
  finishReason : Option String

structure GenerateContentResponse where
  responseId : String
  modelVersion : String
  candidates : List Candidate
  usageMetadata : UsageMetadata

inductive ChunkConversionResult where
  | response (response : GenerateContentResponse)
  | skip
  | error (error : String)

/-- The args-parsing step of buildContent: parse the accumulated raw JSON
text when non-empty, substituting an empty object on failure (JSON.parse of
the empty string also throws, which the source short-circuits with its
truthiness test). -/
def parseArgsJson (args : String) : Json :=
  if args ≠ "" then
    match parseJson args with
    | some v => v
    | none => Json.obj []
  else Json.obj []

def buildContent (context : ChunkConversionContext) : GoogleContent :=
  let parts : List GooglePart :=
    (if context.accumulatedText ≠ "" then [GooglePart.text context.accumulatedText]
     else []) ++
    context.accumulatedFunctionCalls.map
      (fun p => GooglePart.functionCall p.1 p.2.name (parseArgsJson p.2.args))
  { role := "model"
    parts := if parts.isEmpty then [GooglePart.text ""] else parts }

def buildIncrementalResponse (context : ChunkConversionContext) :
    GenerateContentResponse where
  responseId := context.responseId
  modelVersion := context.modelVersion
  candidates := [{ content := buildContent context, finishReason := none }]
  usageMetadata :=
    { promptTokenCount := context.inputTokens
      candidatesTokenCount := context.outputTokens
      totalTokenCount := context.inputTokens + context.outputTokens }

def convertFinishReason (finishReason : String) : String :=
  if finishReason = "stop" then "STOP"
  else if finishReason = "length" then "MAX_TOKENS"
  else if finishReason = "content-filter" then "SAFETY"
  else if finishReason = "tool-calls" then "STOP"
  else "OTHER"

def buildFinalResponse (context : ChunkConversionContext) (finishReason : String)
    (totalUsage : LanguageModelUsage) : GenerateContentResponse :=
  let inputTokens := totalUsage.inputTokens.getD context.inputTokens
  let outputTokens := totalUsage.outputTokens.getD context.outputTokens
  { responseId := context.responseId
    modelVersion := context.modelVersion
    candidates := [{ content := buildContent context
                     finishReason := some (convertFinishReason finishReason) }]
    usageMetadata :=
      { promptTokenCount := inputTokens
        candidatesTokenCount := outputTokens
        totalTokenCount := totalUsage.totalTokens.getD (inputTokens + outputTokens) } }

def googleChunkFromAiSDK (chunk : AiSDKChunk) (context : ChunkConversionContext) :
    ChunkConversionResult × ChunkConversionContext :=
  match chunk with
  | .textStart _ => (.skip, context)
  | .textDelta _ text =>
      let context1 := { context with accumulatedText := context.accumulatedText ++ text }
      (.response (buildIncrementalResponse context1), context1)
  | .textEnd _ => (.skip, context)
  | .reasoningStart _ => (.skip, context)
  | .reasoningDelta _ _ => (.skip, context)
  | .reasoningEnd _ => (.skip, context)
  | .toolInputStart id toolName =>
      (.skip,
       { context with
           accumulatedFunctionCalls :=
             mapSet context.accumulatedFunctionCalls id { name := toolName, args := "" } })
  | .toolInputDelta id delta =>
      match mapGet? context.accumulatedFunctionCalls id with
      | none => (.error ("Unknown tool call id: " ++ id), context)
      | some funcCall =>
          let context1 :=
            { context with
                accumulatedFunctionCalls :=
                  mapSet context.accumulatedFunctionCalls id
                    { funcCall with args := funcCall.args ++ delta } }
          (.response (buildIncrementalResponse context1), context1)
  | .toolInputEnd _ =>
      (.response (buildIncrementalResponse context), context)
  | .toolCall toolCallId toolName input =>
      let context1 :=
        { context with
            accumulatedFunctionCalls :=
              mapSet context.accumulatedFunctionCalls toolCallId
                { name := toolName, args := jsonStringify input } }
      (.response (buildIncrementalResponse context1), context1)
  | .toolResult _ _ => (.skip, context)
  | .toolError _ _ => (.skip, context)
  | .finishStep usage _ =>
      let context1 :=
        match usage.inputTokens with
        | some n => { context with inputTokens := n }
        | none => context
      let context2 :=
        match usage.outputTokens with
        | some n => { context1 with outputTokens := n }
        | none => context1
      (.skip, context2)
  | .finish finishReason totalUsage =>
      (.response (buildFinalResponse context finishReason totalUsage), context)
  | .start => (.skip, context)
  | .startStep => (.skip, context)
  | .abort => (.skip, context)
  | .error e => (.error (jsStringOfError e), context)
  | .source => (.skip, context)
  | .file => (.skip, context)
  | .raw => (.skip, context)

def googleRunCtx : List AiSDKChunk → ChunkConversionContext → ChunkConversionContext
  | [], c => c
  | ch :: rest, c => googleRunCtx rest (googleChunkFromAiSDK ch c).2

/-- The snapshots emitted over a run, in order. -/
def googleOutputs : List AiSDKChunk → ChunkConversionContext → List GenerateContentResponse
  | [], _ => []
  | ch :: rest, c =>
    (match (googleChunkFromAiSDK ch c).1 with
     | .response r => [r]
     | _ => []) ++ googleOutputs rest (googleChunkFromAiSDK ch c).2

end Google


/-! ### Snapshot observers and bookkeeping for claims C4 and C8 -/

namespace Google

def listIsPrefixOf : List Char → List Char → Bool
  | [], _ => true
  | _ :: _, [] => false
  | a :: as, b :: bs => a == b && listIsPrefixOf as bs

def strIsPrefixOf (s t : String) : Bool :=
  listIsPrefixOf s.data t.data

theorem listIsPrefixOf_append_self :
    ∀ (l m : List Char), listIsPrefixOf l (l ++ m) = true := by
  intro l
  induction l with
  | nil => intro m; rfl
  | cons a as ih => intro m; simp [listIsPrefixOf, ih]

theorem strIsPrefixOf_append (s t : String) : strIsPrefixOf s (s ++ t) = true := by
  obtain ⟨ls⟩ := s
  obtain ⟨lt⟩ := t
  show listIsPrefixOf ls (ls ++ lt) = true
  exact listIsPrefixOf_append_self ls lt

theorem strIsPrefixOf_self (s : String) : strIsPrefixOf s s = true := by
  obtain ⟨ls⟩ := s
  show listIsPrefixOf ls ls = true
  have := listIsPrefixOf_append_self ls []
  simpa using this

theorem strAppendEmpty (s : String) : s ++ "" = s := by
  obtain ⟨ls⟩ := s
  show String.mk (ls ++ []) = String.mk ls
  simp

theorem strEmptyAppend (s : String) : "" ++ s = s := by
  obtain ⟨ls⟩ := s
  rfl

/-- Concatenated text of a part list (text parts only). -/
def partsText : List GooglePart → String
  | [] => ""
  | GooglePart.text t :: rest => t ++ partsText rest
  | _ :: rest => partsText rest

def candidatesText : List Candidate → String
  | [] => ""
  | cand :: rest => partsText cand.content.parts ++ candidatesText rest

/-- The text carried by a snapshot. -/
def responseText (r : GenerateContentResponse) : String :=
  candidatesText r.candidates

/-- Texts of the snapshots emitted over a run, in order. -/
def googleOutputTexts : List AiSDKChunk → ChunkConversionContext → List String
  | [], _ => []
  | ch :: rest, c =>
    (match (googleChunkFromAiSDK ch c).1 with
     | .response r => [responseText r]
     | _ => []) ++ googleOutputTexts rest (googleChunkFromAiSDK ch c).2

/-- Adjacent prefix-extension chain, seeded with the text accumulated so
far. -/
def prefixChainFrom (s : String) : List String → Bool
  | [] => true
  | t :: rest => strIsPrefixOf s t && prefixChainFrom t rest

theorem partsText_map_functionCall (l : List (String × FunctionCallAccum)) :
    partsText (l.map (fun p => GooglePart.functionCall p.1 p.2.name (parseArgsJson p.2.args)))
      = "" := by
  induction l with
  | nil => rfl
  | cons p rest ih => simp [partsText, ih]

theorem partsText_buildContent (c : ChunkConversionContext) :
    partsText (buildContent c).parts = c.accumulatedText := by
  by_cases h : c.accumulatedText = ""
  · cases hl : c.accumulatedFunctionCalls with
    | nil => simp [buildContent, h, hl, partsText]
    | cons p rest =>
      simp [buildContent, h, hl, partsText]
      have := partsText_map_functionCall (p :: rest)
      rw [hl] at *
      simpa [partsText] using this
  · simp [buildContent, h, partsText, partsText_map_functionCall, strAppendEmpty]

theorem responseText_buildIncremental (c : ChunkConversionContext) :
    responseText (buildIncrementalResponse c) = c.accumulatedText := by
  simp [responseText, buildIncrementalResponse, candidatesText, partsText_buildContent,
    strAppendEmpty]

theorem responseText_buildFinal (c : ChunkConversionContext) (r : String)
    (u : LanguageModelUsage) :
    responseText (buildFinalResponse c r u) = c.accumulatedText := by
  simp [responseText, buildFinalResponse, candidatesText, partsText_buildContent,
    strAppendEmpty]

end Google


namespace Google

/-- Text monotonicity: over any run, the texts of the emitted snapshots
extend the already accumulated text, each extending the previous one. -/
theorem google_text_monotone_aux :
    ∀ (chunks : List AiSDKChunk) (c : ChunkConversionContext),
      prefixChainFrom c.accumulatedText (googleOutputTexts chunks c) = true := by
  intro chunks
  induction chunks with
  | nil => intro c; simp [googleOutputTexts, prefixChainFrom]
  | cons ch rest ih =>
    intro c
    cases ch with
    | textDelta id text =>
      have hrec := ih { c with accumulatedText := c.accumulatedText ++ text }
      simp [googleOutputTexts, googleChunkFromAiSDK, prefixChainFrom,
        responseText_buildIncremental, strIsPrefixOf_append, hrec]
    | toolInputStart id toolName =>
      have hrec := ih { c with
        accumulatedFunctionCalls :=
          mapSet c.accumulatedFunctionCalls id { name := toolName, args := "" } }
      simpa [googleOutputTexts, googleChunkFromAiSDK] using hrec
    | toolInputDelta id delta =>
      cases hfound : mapGet? c.accumulatedFunctionCalls id with
      | none =>
        have hrec := ih c
        simpa [googleOutputTexts, googleChunkFromAiSDK, hfound] using hrec
      | some fc =>
        have hrec := ih { c with
          accumulatedFunctionCalls :=
            mapSet c.accumulatedFunctionCalls id { fc with args := fc.args ++ delta } }
        simpa [googleOutputTexts, googleChunkFromAiSDK, hfound, prefixChainFrom,
          responseText_buildIncremental, strIsPrefixOf_self] using hrec
    | toolInputEnd id =>
      have hrec := ih c
      simpa [googleOutputTexts, googleChunkFromAiSDK, prefixChainFrom,
        responseText_buildIncremental, strIsPrefixOf_self] using hrec
    | toolCall toolCallId toolName input =>
      have hrec := ih { c with
        accumulatedFunctionCalls :=
          mapSet c.accumulatedFunctionCalls toolCallId
            { name := toolName, args := jsonStringify input } }
      simpa [googleOutputTexts, googleChunkFromAiSDK, prefixChainFrom,
        responseText_buildIncremental, strIsPrefixOf_self] using hrec
    | finishStep usage finishReason =>
      obtain ⟨ui, uo, ut⟩ := usage
      cases ui <;> cases uo <;>
        first
        | (have hrec := ih c
           simpa [googleOutputTexts, googleChunkFromAiSDK] using hrec)
        | skip
      all_goals
        first
        | (rename_i n
           have hrec := ih { c with outputTokens := n }
           simpa [googleOutputTexts, googleChunkFromAiSDK] using hrec)
        | (rename_i n
           have hrec := ih { c with inputTokens := n }
           simpa [googleOutputTexts, googleChunkFromAiSDK] using hrec)
        | (rename_i n m
           have hrec := ih { c with inputTokens := n, outputTokens := m }
           simpa [googleOutputTexts, googleChunkFromAiSDK] using hrec)
    | finish finishReason totalUsage =>
      have hrec := ih c
      simpa [googleOutputTexts, googleChunkFromAiSDK, prefixChainFrom,
        responseText_buildFinal, strIsPrefixOf_self] using hrec
    | textStart id =>
      have hrec := ih c
      simpa [googleOutputTexts, googleChunkFromAiSDK] using hrec
    | textEnd id =>
      have hrec := ih c
      simpa [googleOutputTexts, googleChunkFromAiSDK] using hrec
    | reasoningStart id =>
      have hrec := ih c
      simpa [googleOutputTexts, googleChunkFromAiSDK] using hrec
    | reasoningDelta id text =>
      have hrec := ih c
      simpa [googleOutputTexts, googleChunkFromAiSDK] using hrec
    | reasoningEnd id =>
      have hrec := ih c
      simpa [googleOutputTexts, googleChunkFromAiSDK] using hrec
    | toolResult toolCallId toolName =>
      have hrec := ih c
      simpa [googleOutputTexts, googleChunkFromAiSDK] using hrec
    | toolError toolCallId toolName =>
      have hrec := ih c
      simpa [googleOutputTexts, googleChunkFromAiSDK] using hrec
    | start =>
      have hrec := ih c
      simpa [googleOutputTexts, googleChunkFromAiSDK] using hrec
    | startStep =>
      have hrec := ih c
      simpa [googleOutputTexts, googleChunkFromAiSDK] using hrec
    | abort =>
      have hrec := ih c
      simpa [googleOutputTexts, googleChunkFromAiSDK] using hrec
    | error e =>
      have hrec := ih c
      simpa [googleOutputTexts, googleChunkFromAiSDK] using hrec
    | source =>
      have hrec := ih c
      simpa [googleOutputTexts, googleChunkFromAiSDK] using hrec
    | file =>
      have hrec := ih c
      simpa [googleOutputTexts, googleChunkFromAiSDK] using hrec
    | raw =>
      have hrec := ih c
      simpa [googleOutputTexts, googleChunkFromAiSDK] using hrec

end Google


namespace Google

/-- Concatenation of all tool-input-delta fragments for an id. -/
def concatToolDeltas (id : String) : List AiSDKChunk → String
  | [] => ""
  | AiSDKChunk.toolInputDelta id2 d :: rest =>
      (if id2 = id then d else "") ++ concatToolDeltas id rest
  | _ :: rest => concatToolDeltas id rest

/-- No event in the list re-records the given id (a tool-input-start resets
its accumulated args, a complete tool-call overwrites them). -/
def noToolReset (id : String) : List AiSDKChunk → Bool
  | [] => true
  | AiSDKChunk.toolInputStart id2 _ :: rest => !(id2 = id) && noToolReset id rest
  | AiSDKChunk.toolCall id2 _ _ :: rest => !(id2 = id) && noToolReset id rest
  | _ :: rest => noToolReset id rest

/-- First function-call part with the given call id. -/
def partFor (id : String) : List GooglePart → Option GooglePart
  | [] => none
  | GooglePart.functionCall id2 name args :: rest =>
      if id2 = id then some (GooglePart.functionCall id2 name args) else partFor id rest
  | _ :: rest => partFor id rest

theorem googleRunCtx_append (l1 l2 : List AiSDKChunk) :
    ∀ c, googleRunCtx (l1 ++ l2) c = googleRunCtx l2 (googleRunCtx l1 c) := by
  induction l1 with
  | nil => intro c; rfl
  | cons ch rest ih => intro c; simp [googleRunCtx, ih]

/-- Args accumulation: between a start and the matching end, with no
re-recording of the id, the accumulated args text grows by exactly the
concatenation of that id\x27s delta fragments. -/
theorem google_args_accum_aux :
    ∀ (mid : List AiSDKChunk) (c : ChunkConversionContext) (id : String)
      (fc : FunctionCallAccum),
      noToolReset id mid = true →
      mapGet? c.accumulatedFunctionCalls id = some fc →
      mapGet? (googleRunCtx mid c).accumulatedFunctionCalls id
        = some { fc with args := fc.args ++ concatToolDeltas id mid } := by
  intro mid
  induction mid with
  | nil =>
    intro c id fc _ hfc
    simpa [googleRunCtx, concatToolDeltas, strAppendEmpty] using hfc
  | cons ch rest ih =>
    intro c id fc hres hfc
    cases ch with
    | toolInputStart id2 toolName =>
      rw [noToolReset, Bool.and_eq_true] at hres
      have hne : ¬ id2 = id := by simpa using hres.1
      have hget : mapGet? (mapSet c.accumulatedFunctionCalls id2
          { name := toolName, args := "" }) id = some fc := by
        rw [mapGet?_mapSet_ne _ _ _ _ (fun h => hne h.symm)]
        exact hfc
      have := ih { c with
        accumulatedFunctionCalls :=
          mapSet c.accumulatedFunctionCalls id2 { name := toolName, args := "" } }
        id fc hres.2 hget
      simpa [googleRunCtx, googleChunkFromAiSDK, concatToolDeltas] using this
    | toolCall id2 toolName input =>
      rw [noToolReset, Bool.and_eq_true] at hres
      have hne : ¬ id2 = id := by simpa using hres.1
      have hget : mapGet? (mapSet c.accumulatedFunctionCalls id2
          { name := toolName, args := jsonStringify input }) id = some fc := by
        rw [mapGet?_mapSet_ne _ _ _ _ (fun h => hne h.symm)]
        exact hfc
      have := ih { c with
        accumulatedFunctionCalls :=
          mapSet c.accumulatedFunctionCalls id2
            { name := toolName, args := jsonStringify input } }
        id fc hres.2 hget
      simpa [googleRunCtx, googleChunkFromAiSDK, concatToolDeltas] using this
    | toolInputDelta id2 delta =>
      simp only [noToolReset] at hres
      by_cases hid : id2 = id
      · rw [hid]
        cases hfound : mapGet? c.accumulatedFunctionCalls id with
        | none => rw [hfound] at hfc; cases hfc
        | some fc2 =>
          have hfc2 : fc2 = fc := by
            rw [hfound] at hfc
            exact Option.some.inj hfc
          subst hfc2
          have hget : mapGet? (mapSet c.accumulatedFunctionCalls id
              { fc2 with args := fc2.args ++ delta }) id
              = some { fc2 with args := fc2.args ++ delta } :=
            mapGet?_mapSet_self _ _ _
          have := ih { c with
            accumulatedFunctionCalls :=
              mapSet c.accumulatedFunctionCalls id
                { fc2 with args := fc2.args ++ delta } }
            id { fc2 with args := fc2.args ++ delta } hres hget
          simp [googleRunCtx, googleChunkFromAiSDK, hfound, concatToolDeltas] at this ⊢
          rw [this]
          simp [String.append_assoc]
      · cases hfound : mapGet? c.accumulatedFunctionCalls id2 with
        | none =>
          have := ih c id fc hres hfc
          simpa [googleRunCtx, googleChunkFromAiSDK, hfound, concatToolDeltas, hid]
            using this
        | some fc2 =>
          have hget : mapGet? (mapSet c.accumulatedFunctionCalls id2
              { fc2 with args := fc2.args ++ delta }) id = some fc := by
            rw [mapGet?_mapSet_ne _ _ _ _ (fun h => hid h.symm)]
            exact hfc
          have := ih { c with
            accumulatedFunctionCalls :=
              mapSet c.accumulatedFunctionCalls id2
                { fc2 with args := fc2.args ++ delta } }
            id fc hres hget
          simpa [googleRunCtx, googleChunkFromAiSDK, hfound, concatToolDeltas, hid,
            strEmptyAppend] using this
    | textDelta id2 text =>
      have := ih { c with accumulatedText := c.accumulatedText ++ text } id fc hres hfc
      simpa [googleRunCtx, googleChunkFromAiSDK, concatToolDeltas] using this
    | finishStep usage finishReason =>
      obtain ⟨ui, uo, ut⟩ := usage
      cases ui with
      | none =>
        cases uo with
        | none =>
          have := ih c id fc hres hfc
          simpa [googleRunCtx, googleChunkFromAiSDK, concatToolDeltas] using this
        | some m =>
          have := ih { c with outputTokens := m } id fc hres hfc
          simpa [googleRunCtx, googleChunkFromAiSDK, concatToolDeltas] using this
      | some n =>
        cases uo with
        | none =>
          have := ih { c with inputTokens := n } id fc hres hfc
          simpa [googleRunCtx, googleChunkFromAiSDK, concatToolDeltas] using this
        | some m =>
          have := ih { c with inputTokens := n, outputTokens := m } id fc hres hfc
          simpa [googleRunCtx, googleChunkFromAiSDK, concatToolDeltas] using this
    | textStart id2 =>
      have := ih c id fc hres hfc
      simpa [googleRunCtx, googleChunkFromAiSDK, concatToolDeltas] using this
    | textEnd id2 =>
      have := ih c id fc hres hfc
      simpa [googleRunCtx, googleChunkFromAiSDK, concatToolDeltas] using this
    | reasoningStart id2 =>
      have := ih c id fc hres hfc
      simpa [googleRunCtx, googleChunkFromAiSDK, concatToolDeltas] using this
    | reasoningDelta id2 text =>
      have := ih c id fc hres hfc
      simpa [googleRunCtx, googleChunkFromAiSDK, concatToolDeltas] using this
    | reasoningEnd id2 =>
      have := ih c id fc hres hfc
      simpa [googleRunCtx, googleChunkFromAiSDK, concatToolDeltas] using this
    | toolInputEnd id2 =>
      have := ih c id fc hres hfc
      simpa [googleRunCtx, googleChunkFromAiSDK, concatToolDeltas] using this
    | toolResult toolCallId toolName =>
      have := ih c id fc hres hfc
      simpa [googleRunCtx, googleChunkFromAiSDK, concatToolDeltas] using this
    | toolError toolCallId toolName =>
      have := ih c id fc hres hfc
      simpa [googleRunCtx, googleChunkFromAiSDK, concatToolDeltas] using this
    | finish finishReason totalUsage =>
      have := ih c id fc hres hfc
      simpa [googleRunCtx, googleChunkFromAiSDK, concatToolDeltas] using this
    | start =>
      have := ih c id fc hres hfc
      simpa [googleRunCtx, googleChunkFromAiSDK, concatToolDeltas] using this
    | startStep =>
      have := ih c id fc hres hfc
      simpa [googleRunCtx, googleChunkFromAiSDK, concatToolDeltas] using this
    | abort =>
      have := ih c id fc hres hfc
      simpa [googleRunCtx, googleChunkFromAiSDK, concatToolDeltas] using this
    | error e =>
      have := ih c id fc hres hfc
      simpa [googleRunCtx, googleChunkFromAiSDK, concatToolDeltas] using this
    | source =>
      have := ih c id fc hres hfc
      simpa [googleRunCtx, googleChunkFromAiSDK, concatToolDeltas] using this
    | file =>
      have := ih c id fc hres hfc
      simpa [googleRunCtx, googleChunkFromAiSDK, concatToolDeltas] using this
    | raw =>
      have := ih c id fc hres hfc
      simpa [googleRunCtx, googleChunkFromAiSDK, concatToolDeltas] using this

theorem partFor_map_entries (id : String) :
    ∀ (l : List (String × FunctionCallAccum)),
      partFor id (l.map (fun p => GooglePart.functionCall p.1 p.2.name (parseArgsJson p.2.args)))
        = (mapGet? l id).map
            (fun fc => GooglePart.functionCall id fc.name (parseArgsJson fc.args)) := by
  intro l
  induction l with
  | nil => rfl
  | cons p rest ih =>
    obtain ⟨k, fc⟩ := p
    by_cases hk : k = id
    · simp [partFor, mapGet?, hk]
    · simp [partFor, mapGet?, hk, ih]

theorem partFor_buildContent (c : ChunkConversionContext) (id : String) :
    partFor id (buildContent c).parts
      = (mapGet? c.accumulatedFunctionCalls id).map
          (fun fc => GooglePart.functionCall id fc.name (parseArgsJson fc.args)) := by
  by_cases h : c.accumulatedText = ""
  · cases hl : c.accumulatedFunctionCalls with
    | nil => simp [buildContent, h, hl, partFor, mapGet?]
    | cons p rest =>
      have := partFor_map_entries id (p :: rest)
      simpa [buildContent, h, hl, partFor] using this
  · have := partFor_map_entries id c.accumulatedFunctionCalls
    by_cases hl : c.accumulatedFunctionCalls = [] <;>
      simpa [buildContent, h, hl, partFor] using this

end Google


namespace Google

/-- The snapshot parts construction as the spec words it, for comparison
with buildContent: one text part holding the accumulated text iff
non-empty, then one function-call part per accumulated entry in insertion
order with args parsed as JSON (empty object when parsing fails), and a
single empty-text part when nothing has accumulated. -/
def specSnapshotParts (context : ChunkConversionContext) : List GooglePart :=
  let textParts : List GooglePart :=
    if context.accumulatedText ≠ "" then [GooglePart.text context.accumulatedText] else []
  let callParts : List GooglePart :=
    context.accumulatedFunctionCalls.map
      (fun p => GooglePart.functionCall p.1 p.2.name
        ((parseJson p.2.args).getD (Json.obj [])))
  if (textParts ++ callParts).isEmpty then [GooglePart.text ""] else textParts ++ callParts

theorem parseArgsJson_eq_spec (args : String) :
    parseArgsJson args = (parseJson args).getD (Json.obj []) := by
  by_cases h : args = ""
  · subst h
    rfl
  · simp only [parseArgsJson, ne_eq, h, not_false_eq_true, if_true]
    cases parseJson args <;> simp

theorem padded_ne_nil (l : List GooglePart) :
    (if l.isEmpty then [GooglePart.text ""] else l) ≠ [] := by
  cases l <;> simp

end Google

/-! ## Claim theorems for adapter C -/

/-- C8: every snapshot content built by adapter C has role model and a
parts array that is exactly: one text part with the accumulated text iff
it is non-empty, followed by one function-call part per accumulated entry
in insertion order, each carrying the call id, name, and its args text
parsed as JSON with an empty object substituted when parsing fails (the
empty args string included), and a single empty-text part when no text and
no function calls have accumulated; in particular the parts array is never
empty. -/
theorem google_snapshot_structure (c : Google.ChunkConversionContext) :
    Google.buildContent c
      = { role := "model", parts := Google.specSnapshotParts c } ∧
    (Google.buildContent c).parts ≠ [] := by
  constructor
  · simp [Google.buildContent, Google.specSnapshotParts, Google.parseArgsJson_eq_spec]
  · simp only [Google.buildContent]
    exact Google.padded_ne_nil _

/-- C4: for adapter C (googleChunkFromAiSDK), (1) over any run from a fresh
context the texts of the emitted snapshots form a prefix-extension chain
(each snapshot text extends the previous one), and (2) after a
tool-input-start for an id followed by any events that do not re-record
that id, the snapshot emitted on tool-input-end carries a function-call
part for that id whose args equal the JSON parse of the exact
concatenation of the tool-input-delta fragments sent for that id. -/
theorem google_snapshot_monotone_and_args :
    (∀ (rid mv : String) (chunks : List AiSDKChunk),
      Google.prefixChainFrom ""
        (Google.googleOutputTexts chunks
          (Google.createChunkConversionContext rid mv)) = true) ∧
    (∀ (rid mv id name : String) (pre mid : List AiSDKChunk) (v : Json),
      Google.noToolReset id mid = true →
      parseJson (Google.concatToolDeltas id mid) = some v →
      (Google.googleChunkFromAiSDK (AiSDKChunk.toolInputEnd id)
          (Google.googleRunCtx mid
            (Google.googleRunCtx (pre ++ [AiSDKChunk.toolInputStart id name])
              (Google.createChunkConversionContext rid mv)))).1
        = Google.ChunkConversionResult.response
            (Google.buildIncrementalResponse
              (Google.googleRunCtx mid
                (Google.googleRunCtx (pre ++ [AiSDKChunk.toolInputStart id name])
                  (Google.createChunkConversionContext rid mv)))) ∧
      Google.partFor id
          (Google.buildContent
            (Google.googleRunCtx mid
              (Google.googleRunCtx (pre ++ [AiSDKChunk.toolInputStart id name])
                (Google.createChunkConversionContext rid mv)))).parts
        = some (Google.GooglePart.functionCall id name v)) := by
  constructor
  · intro rid mv chunks
    have := Google.google_text_monotone_aux chunks
      (Google.createChunkConversionContext rid mv)
    simpa [Google.createChunkConversionContext] using this
  · intro rid mv id name pre mid v hres hparse
    have h0 : mapGet? (Google.googleRunCtx (pre ++ [AiSDKChunk.toolInputStart id name])
        (Google.createChunkConversionContext rid mv)).accumulatedFunctionCalls id
        = some { name := name, args := "" } := by
      rw [Google.googleRunCtx_append]
      simp [Google.googleRunCtx, Google.googleChunkFromAiSDK, mapGet?_mapSet_self]
    have haccum := Google.google_args_accum_aux mid _ id { name := name, args := "" }
      hres h0
    refine ⟨rfl, ?_⟩
    rw [Google.partFor_buildContent, haccum]
    simp [Google.parseArgsJson_eq_spec, Google.strEmptyAppend, hparse]

/-- Witness for C4: two text deltas for part (1); a started tool call with
two argument fragments whose concatenation parses to an object for
part (2). -/
theorem google_snapshot_monotone_and_args_witness :
    Google.prefixChainFrom ""
        (Google.googleOutputTexts
          [AiSDKChunk.textDelta "t" "He", AiSDKChunk.textDelta "t" "llo"]
          (Google.createChunkConversionContext "r" "m")) = true ∧
    Google.partFor "call_1"
        (Google.buildContent
          (Google.googleRunCtx
            [AiSDKChunk.toolInputDelta "call_1" "\x7b\"location\"",
             AiSDKChunk.toolInputDelta "call_1" ":\"SF\"\x7d"]
            (Google.googleRunCtx ([] ++ [AiSDKChunk.toolInputStart "call_1" "get_weather"])
              (Google.createChunkConversionContext "r" "m")))).parts
      = some (Google.GooglePart.functionCall "call_1" "get_weather"
          (Json.obj [("location", Json.str "SF")])) :=
  ⟨google_snapshot_monotone_and_args.1 "r" "m"
      [AiSDKChunk.textDelta "t" "He", AiSDKChunk.textDelta "t" "llo"],
   (google_snapshot_monotone_and_args.2 "r" "m" "call_1" "get_weather" []
      [AiSDKChunk.toolInputDelta "call_1" "\x7b\"location\"",
       AiSDKChunk.toolInputDelta "call_1" ":\"SF\"\x7d"]
      (Json.obj [("location", Json.str "SF")]) (by decide) (by rfl)).2⟩


/-! ## Cross-adapter claim theorems -/

/-- C2 counterexample: the claim requires a tool-input-end with an unknown
id to produce an error result in every adapter, but adapter B returns skip
for tool-input-end (it never checks the id). -/
theorem unknown_tool_id_counterexample :
    (Openai.openaiChunkFromAiSDK (.toolInputEnd "call_x")
        (Openai.createChunkConversionContext "i" "m" 0)).1
      = Openai.ChunkConversionResult.skip ∧
    ¬ (Openai.openaiChunkFromAiSDK (.toolInputEnd "call_x")
        (Openai.createChunkConversionContext "i" "m" 0)).1
      = Openai.ChunkConversionResult.error ("Unknown tool call id: " ++ "call_x") :=
  ⟨rfl, by decide⟩

/-- C2 (amended): a tool-input-delta for an unrecorded id returns the
error "Unknown tool call id: <id>" in all three adapters, and a
tool-input-end for an unrecorded id returns that error in adapter A,
while adapter B skips and adapter C emits a snapshot; in every case the
context is returned unchanged. -/
theorem unknown_tool_id_behavior (id delta : String)
    (cA : Anthropic.ChunkConversionContext)
    (cB : Openai.ChunkConversionContext)
    (cC : Google.ChunkConversionContext)
    (hA : mapGet? cA.toolCallIndices id = none)
    (hB : mapGet? cB.toolCallIndices id = none)
    (hC : mapGet? cC.accumulatedFunctionCalls id = none) :
    Anthropic.anthropicChunkFromAiSDK (.toolInputDelta id delta) cA
      = (.error ("Unknown tool call id: " ++ id), cA) ∧
    Anthropic.anthropicChunkFromAiSDK (.toolInputEnd id) cA
      = (.error ("Unknown tool call id: " ++ id), cA) ∧
    Openai.openaiChunkFromAiSDK (.toolInputDelta id delta) cB
      = (.error ("Unknown tool call id: " ++ id), cB) ∧
    Openai.openaiChunkFromAiSDK (.toolInputEnd id) cB = (.skip, cB) ∧
    Google.googleChunkFromAiSDK (.toolInputDelta id delta) cC
      = (.error ("Unknown tool call id: " ++ id), cC) ∧
    Google.googleChunkFromAiSDK (.toolInputEnd id) cC
      = (.response (Google.buildIncrementalResponse cC), cC) := by
  refine ⟨?_, ?_, ?_, rfl, ?_, rfl⟩
  · simp [Anthropic.anthropicChunkFromAiSDK, hA]
  · simp [Anthropic.anthropicChunkFromAiSDK, hA]
  · simp [Openai.openaiChunkFromAiSDK, hB]
  · simp [Google.googleChunkFromAiSDK, hC]

/-- Witness for C2 (amended) at fresh contexts and an unknown id. -/
theorem unknown_tool_id_behavior_witness :
    Anthropic.anthropicChunkFromAiSDK (.toolInputDelta "call_x" "zz")
        (Anthropic.createChunkConversionContext "i" "m")
      = (.error ("Unknown tool call id: " ++ "call_x"),
         Anthropic.createChunkConversionContext "i" "m") ∧
    Anthropic.anthropicChunkFromAiSDK (.toolInputEnd "call_x")
        (Anthropic.createChunkConversionContext "i" "m")
      = (.error ("Unknown tool call id: " ++ "call_x"),
         Anthropic.createChunkConversionContext "i" "m") ∧
    Openai.openaiChunkFromAiSDK (.toolInputDelta "call_x" "zz")
        (Openai.createChunkConversionContext "i" "m" 7)
      = (.error ("Unknown tool call id: " ++ "call_x"),
         Openai.createChunkConversionContext "i" "m" 7) ∧
    Openai.openaiChunkFromAiSDK (.toolInputEnd "call_x")
        (Openai.createChunkConversionContext "i" "m" 7)
      = (.skip, Openai.createChunkConversionContext "i" "m" 7) ∧
    Google.googleChunkFromAiSDK (.toolInputDelta "call_x" "zz")
        (Google.createChunkConversionContext "i" "m")
      = (.error ("Unknown tool call id: " ++ "call_x"),
         Google.createChunkConversionContext "i" "m") ∧
    Google.googleChunkFromAiSDK (.toolInputEnd "call_x")
        (Google.createChunkConversionContext "i" "m")
      = (.response (Google.buildIncrementalResponse
           (Google.createChunkConversionContext "i" "m")),
         Google.createChunkConversionContext "i" "m") :=
  unknown_tool_id_behavior "call_x" "zz"
    (Anthropic.createChunkConversionContext "i" "m")
    (Openai.createChunkConversionContext "i" "m" 7)
    (Google.createChunkConversionContext "i" "m") rfl rfl rfl

/-- C6: the three finish-reason conversions are total deterministic
functions: stop, length, tool-calls and content-filter map to the fixed
vendor labels (end_turn, max_tokens, tool_use, refusal for A; stop,
length, tool_calls, content_filter for B; STOP, MAX_TOKENS, STOP, SAFETY
for C), and every other string, including error, other and unknown,
collapses to the default (end_turn for A, stop for B, OTHER for C). -/
theorem finish_reason_mapping_total (r : String)
    (h : ¬ r ∈ (["stop", "length", "tool-calls", "content-filter"] : List String)) :
    Anthropic.convertStopReason "stop" = "end_turn" ∧
    Anthropic.convertStopReason "length" = "max_tokens" ∧
    Anthropic.convertStopReason "tool-calls" = "tool_use" ∧
    Anthropic.convertStopReason "content-filter" = "refusal" ∧
    Openai.convertFinishReason "stop" = "stop" ∧
    Openai.convertFinishReason "length" = "length" ∧
    Openai.convertFinishReason "tool-calls" = "tool_calls" ∧
    Openai.convertFinishReason "content-filter" = "content_filter" ∧
    Google.convertFinishReason "stop" = "STOP" ∧
    Google.convertFinishReason "length" = "MAX_TOKENS" ∧
    Google.convertFinishReason "tool-calls" = "STOP" ∧
    Google.convertFinishReason "content-filter" = "SAFETY" ∧
    Anthropic.convertStopReason r = "end_turn" ∧
    Openai.convertFinishReason r = "stop" ∧
    Google.convertFinishReason r = "OTHER" := by
  simp only [List.mem_cons, List.not_mem_nil, or_false, not_or] at h
  obtain ⟨h1, h2, h3, h4⟩ := h
  refine ⟨rfl, rfl, rfl, rfl, rfl, rfl, rfl, rfl, rfl, rfl, rfl, rfl, ?_, ?_, ?_⟩
  · simp [Anthropic.convertStopReason, h1, h2, h3, h4]
  · simp [Openai.convertFinishReason, h1, h2, h3, h4]
  · simp [Google.convertFinishReason, h1, h2, h3, h4]

/-- Witness for C6 at the unrecognized value unknown. -/
theorem finish_reason_mapping_total_witness :
    Anthropic.convertStopReason "unknown" = "end_turn" ∧
    Openai.convertFinishReason "unknown" = "stop" ∧
    Google.convertFinishReason "unknown" = "OTHER" := by
  have h := finish_reason_mapping_total "unknown" (by decide)
  exact ⟨h.2.2.2.2.2.2.2.2.2.2.2.2.1,
         h.2.2.2.2.2.2.2.2.2.2.2.2.2.1,
         h.2.2.2.2.2.2.2.2.2.2.2.2.2.2⟩

/-- C9 counterexample: every adapter returns String(error) for an error
chunk; on the exception-like value Error("Something went wrong") that is
"Error: Something went wrong", not the bare message field. -/
theorem error_passthrough_counterexample :
    (Anthropic.anthropicChunkFromAiSDK
        (.error (JsErrorValue.exn "Error" "Something went wrong"))
        (Anthropic.createChunkConversionContext "i" "m")).1
      = Anthropic.ChunkConversionResult.error "Error: Something went wrong" ∧
    ¬ ("Error: Something went wrong" = "Something went wrong") :=
  ⟨rfl, by decide⟩

/-- C9 (amended): for every adapter, an error chunk returns an error
result whose message is the JS string form of the error value: the plain
string itself, and for an exception-like value its name-colon-message
rendering (not the bare message field); the context is unchanged. -/
theorem error_passthrough_string_form (e : JsErrorValue)
    (cA : Anthropic.ChunkConversionContext) (cB : Openai.ChunkConversionContext)
    (cC : Google.ChunkConversionContext) :
    Anthropic.anthropicChunkFromAiSDK (.error e) cA
      = (.error (jsStringOfError e), cA) ∧
    Openai.openaiChunkFromAiSDK (.error e) cB
      = (.error (jsStringOfError e), cB) ∧
    Google.googleChunkFromAiSDK (.error e) cC
      = (.error (jsStringOfError e), cC) :=
  ⟨rfl, rfl, rfl⟩

end ProviderConversions
